import Mathlib

/-!
Verification development for the spcad seed process (src/seed_process.py).

The per-district ACDP construction pipeline is embedded shallowly:

* geometry is abstract: every geometric operation the Python code performs
  through shapely / geopandas is a field of the `GeoOps` record, so the
  theorems quantify over any geometry kernel, and concrete instances (tables
  over `G := Nat`) are used to evaluate the pipeline on explicit inputs;
* GeoDataFrames become lists of records; pandas row order is list order
  (spatial joins in geopandas preserve the order of the left frame);
* Python floats become `ℚ` (the quantities involved are exact decimals);
* code paths that raise Python exceptions return `Except.error` with a
  message naming the exception;
* the two self-recursions of the source (`get_candidates` and
  `__get_sectors_by_seed`) take a fuel argument; running out of fuel is the
  Python `RecursionError` of an unbounded recursion.
-/

/-- Abstract geometry kernel: the operations `seed_process.py` performs through
shapely / geopandas.  `intersects` and `coveredBy` are the geometric predicates
of the same names; `buffer g v` is `g.buffer(v)`; `unionList` is the geometry
union computed by `dissolve`; `area` is the polygon area; `contains` is the
containment predicate (used by the spec's wording of the skip rule, not by the
code); `isPolygon g` holds when `g.geom_type == "Polygon"`; `exteriorRing` is
`g.exterior`; `isEmptyG` is `.is_empty`; `polygonOfRing` is `Polygon(ring)`. -/
structure GeoOps (G : Type) where
  intersects : G → G → Bool
  buffer : G → ℚ → G
  unionList : List G → G
  area : G → ℚ
  coveredBy : G → G → Bool
  contains : G → G → Bool
  isPolygon : G → Bool
  exteriorRing : G → G
  isEmptyG : G → Bool
  polygonOfRing : G → G

/-- A sector row: columns `cd_setor`, `cd_dist`, `num_dom`, `geometry` of the
sectors GeoDataFrame, plus the `seed_id` and `acdp_id` columns that rows
acquire through `gpd.sjoin` with a seed frame and through
`__build_acdp_by_sectors` (absent on raw input rows, hence `Option`). -/
structure SRow (G : Type) where
  cd_setor : String
  cd_dist : String
  num_dom : ℚ
  geometry : G
  seed_id : Option Nat
  acdp_id : Option Nat
deriving DecidableEq

/-- A seed row as it reaches `district_sectors_grouping`:
`__read_seeds_by_district` has already dropped the `cd_dist` and `ordem`
columns, leaving `seed_id` and the point geometry. -/
structure SeedRow (G : Type) where
  seed_id : Nat
  geometry : G
deriving DecidableEq

/-- The seed record returned by `__get_sectors_by_seed` (lines 331-334):
geometry replaced by the final buffered disc, plus the `buffer_val` and
`num_dom` columns. -/
structure BufferSeed (G : Type) where
  seed_id : Nat
  geometry : G
  buffer_val : ℚ
  num_dom : ℚ
deriving DecidableEq

/-- An ACDP row as produced by `__build_acdp_by_sectors`. -/
structure AcdpRow (G : Type) where
  seed_id : Nat
  cd_dist : String
  num_dom : ℚ
  geometry : G
  n_sectors : Nat
  area_m2 : ℚ
  cd_sectors : String
  acdp_id : Nat
deriving DecidableEq

/-- The configuration stored on `self` by `SeedProcess.__init__`
(lines 23-31).  `district_code` only filters which districts are read and is
out of the modelled scope. -/
structure Params where
  buffer_to_dissolve : ℚ
  buffer_step : ℚ
  limit_to_stop : ℚ
  lower_limit : ℚ
  upper_limit : ℚ
deriving DecidableEq

/-- `SeedProcess.__init__` (lines 23-31): `_buffer_to_dissolve = 0.5`,
`_lower_limit = limit_to_stop*percent_range/100` when no explicit lower limit
is given, `_upper_limit = limit_to_stop + limit_to_stop*percent_range/100`. -/
def SeedProcess.init (buffer_step percent_range limit_to_stop : ℚ)
    (lower_limit : Option ℚ) : Params :=
  { buffer_to_dissolve := 1/2
    buffer_step := buffer_step
    limit_to_stop := limit_to_stop
    lower_limit := match lower_limit with
      | none => limit_to_stop * percent_range / 100
      | some l => l
    upper_limit := limit_to_stop + limit_to_stop * percent_range / 100 }

/-- `self._acdp_id = 0` in `SeedProcess.__init__` (line 42). -/
def initAcdpId : Nat := 0

/-- Model of Python's `round(x, 2)` on the exact rationals of the embedding
(the distinction between round-half-even and round-half-up is immaterial to
every claim). -/
def round2 (q : ℚ) : ℚ := ((⌊q * 100 + 1/2⌋ : ℤ) : ℚ) / 100

/-- Sector codes of a list of rows, in row order. -/
def selCodes {G : Type} (l : List (SRow G)) : List String := l.map (·.cd_setor)

/-- Household sum (`num_dom` aggregated with `sum`) of a list of rows. -/
def sumDom {G : Type} (l : List (SRow G)) : ℚ := (l.map (·.num_dom)).sum

/-- A `None`-able DataFrame read as a list of rows (`None` is empty). -/
def optList {α : Type} (o : Option (List α)) : List α := o.getD []

/-- First-appearance deduplication, the group order of a pandas
`groupby(..., sort=False)`. -/
def firstDedupAux : List Nat → List Nat → List Nat
  | [], _ => []
  | a :: l, seen => if a ∈ seen then firstDedupAux l seen else a :: firstDedupAux l (a :: seen)

/-- Keys of `dissolve(by='seed_id', sort=False)` in first-appearance order;
rows whose `seed_id` is missing are dropped by pandas `groupby`. -/
def dissolveKeys {G : Type} (sel : List (SRow G)) : List Nat :=
  firstDedupAux (sel.filterMap (·.seed_id)) []

/-- Rows of one dissolve group. -/
def groupRows {G : Type} (sel : List (SRow G)) (k : Nat) : List (SRow G) :=
  sel.filter (fun r => r.seed_id == some k)

/-- The groups of `dissolve(by='seed_id', sort=False)`, keyed and in
first-appearance order. -/
def dissolveGroups {G : Type} (sel : List (SRow G)) : List (Nat × List (SRow G)) :=
  (dissolveKeys sel).map (fun k => (k, groupRows sel k))

/-- Shapely 2 binary predicates treat a missing (`None`) geometry as
non-intersecting: `row.geometry.intersects(dissolved_geometry)` is `False`
while `dissolved_geometry` is still `None` (first probe of a seed). -/
def intersectsO {G : Type} (ops : GeoOps G) (g : G) : Option G → Bool
  | none => false
  | some d => ops.intersects g d

/-- `__move_selected_sectors` (lines 227-238): append the candidate rows to
the selected rows (`pd.concat`, or the candidates themselves when the selected
frame is still `None`) and drop from the main frame every row whose `cd_setor`
occurs among the candidates (`~isin`). -/
def move_selected_sectors {G : Type} (selected? : Option (List (SRow G)))
    (candidate_sectors main_sectors : List (SRow G)) :
    List (SRow G) × List (SRow G) :=
  let sel := match selected? with
    | none => candidate_sectors
    | some s => s ++ candidate_sectors
  (sel, main_sectors.filter (fun m => ¬ candidate_sectors.any (fun c => c.cd_setor == m.cd_setor)))

/-- `__build_acdp_by_sectors` (lines 240-265).  With `acdp_id=None` the
process counter is pre-incremented and used as the new id; otherwise the given
id is kept and the counter is untouched.  The dissolve aggregates `num_dom`
with `sum` and takes `seed_id` and `cd_dist` from the first row of each group;
`n_sectors`, `area_m2` (area of the first dissolved geometry, rounded to 2
decimals) and `cd_sectors` (all codes joined with ",") are then assigned to
every resulting row, and `acdp_id` is written back onto the selected rows.
Calling it with `selected_sectors=None` raises `AttributeError`
(`None.dissolve`); a dissolve with no groups makes `acdps.area.iloc[0]` raise
`IndexError`. -/
def build_acdp_by_sectors {G : Type} (ops : GeoOps G) (counter : Nat)
    (selected? : Option (List (SRow G))) (acdpId? : Option Nat) :
    Except String (List (AcdpRow G) × List (SRow G) × Nat) :=
  match selected? with
  | none => .error "AttributeError: NoneType object has no attribute dissolve"
  | some sel =>
    let next : Nat × Nat := match acdpId? with
      | none => (counter + 1, counter + 1)
      | some i => (counter, i)
    match dissolveGroups sel with
    | [] => .error "IndexError: single positional indexer is out-of-bounds"
    | g0 :: gs =>
      let firstArea := round2 (ops.area (ops.unionList (g0.2.map (·.geometry))))
      let acdps := ((g0 :: gs).map (fun g =>
        { seed_id := g.1
          cd_dist := (g.2.map (·.cd_dist)).headI
          num_dom := sumDom g.2
          geometry := ops.unionList (g.2.map (·.geometry))
          n_sectors := sel.length
          area_m2 := firstArea
          cd_sectors := String.intercalate "," (sel.map (·.cd_setor))
          acdp_id := next.2 : AcdpRow G }))
      .ok (acdps, sel.map (fun r => { r with acdp_id := some next.2 }), next.1)

/-- The inner `get_candidates` of `__get_sectors_by_seed` (lines 281-292):
advance the buffer by one step, buffer a clone of the seed point, spatially
join the remaining sectors with the buffered seed (`predicate='intersects'`,
which tags each matching sector row with the seed's `seed_id`), and recurse
while the join is empty.  The recursion has no base case in Python; fuel
exhaustion is its `RecursionError`. -/
def get_candidates {G : Type} (ops : GeoOps G) (seed : SeedRow G)
    (sectors : List (SRow G)) (buffer_value buffer_step : ℚ) :
    Nat → Option (List (SRow G) × ℚ)
  | 0 => none
  | fuel + 1 =>
    let bv := buffer_value + buffer_step
    let disc := ops.buffer seed.geometry bv
    let candidate_sectors :=
      (sectors.filter (fun s => ops.intersects s.geometry disc)).map
        (fun s => { s with seed_id := some seed.seed_id })
    if candidate_sectors.isEmpty then
      get_candidates ops seed sectors bv buffer_step fuel
    else
      some (candidate_sectors, bv)

/-- The candidate filter pass of `__get_sectors_by_seed` (lines 312-321):
visit the candidate rows in order; a row passes the gate when no households
have been accumulated yet (`total == 0`) or its geometry intersects the
epsilon-buffered dissolved geometry of the previously selected rows (`None`,
hence non-intersecting, on the first probe); a passing row is confirmed when
`total + num_dom` stays strictly below the upper limit, and otherwise sets
`the_end` and breaks out of the loop.  Returns the final total, the confirmed
rows and the `the_end` flag. -/
def filterCandidates {G : Type} (ops : GeoOps G) (upper : ℚ) (dissolved? : Option G) :
    ℚ → List (SRow G) → ℚ × List (SRow G) × Bool
  | total, [] => (total, [], false)
  | total, row :: rest =>
    if total == 0 || intersectsO ops row.geometry dissolved? then
      if total + row.num_dom < upper then
        let r := filterCandidates ops upper dissolved? (total + row.num_dom) rest
        (r.1, row :: r.2.1, r.2.2)
      else
        (total, [], true)
    else
      filterCandidates ops upper dissolved? total rest

/-- Result of `__get_sectors_by_seed`: the built ACDP rows, the selected
sector rows, the remaining district sectors and the seed's buffer record. -/
structure GrowthOk (G : Type) where
  acdps : List (AcdpRow G)
  selected : List (SRow G)
  remaining : List (SRow G)
  bufferSeed : BufferSeed G
deriving DecidableEq

/-- Lines 328-338 of `__get_sectors_by_seed`: store the final disc, buffer
value and total on the seed row and build the ACDP from the selected rows
(advancing the process-global `acdp_id` counter). -/
def finalizeSeed {G : Type} (ops : GeoOps G) (seed : SeedRow G)
    (buffer_value total : ℚ) (selected? : Option (List (SRow G)))
    (sectors : List (SRow G)) (counter : Nat) :
    Except String (GrowthOk G × Nat) :=
  let bufferSeed : BufferSeed G :=
    { seed_id := seed.seed_id
      geometry := ops.buffer seed.geometry buffer_value
      buffer_val := buffer_value
      num_dom := total }
  match build_acdp_by_sectors ops counter selected? none with
  | .error e => .error e
  | .ok (acdps, selected, counter2) =>
    .ok ({ acdps := acdps, selected := selected, remaining := sectors,
           bufferSeed := bufferSeed }, counter2)

/-- `__get_sectors_by_seed` (lines 267-340).  When rows were already selected,
dissolve them (the total and dissolved geometry come from the first dissolve
group, `iloc[0]`), buffer the dissolved geometry by `_buffer_to_dissolve`, and
query candidates only if some remaining sector intersects it (otherwise
`the_end`).  Candidates are then filtered (`filterCandidates`), confirmed rows
are moved from the remaining pool, and the function either finalizes (no
remaining sectors, or `the_end`) or recurses with the grown buffer.  The
`district_acdps` argument is carried but never used, as in the source. -/
def get_sectors_by_seed {G : Type} (ops : GeoOps G) (p : Params) (seed : SeedRow G) :
    List (SRow G) → ℚ → Option (List (SRow G)) → Option (List (AcdpRow G)) → Nat → Nat →
    Except String (GrowthOk G × Nat)
  | _, _, _, _, _, 0 => .error "RecursionError: maximum recursion depth exceeded"
  | sectors, buffer_value, selected?, district_acdps, counter, fuel + 1 =>
    match selected? with
    | none =>
      match get_candidates ops seed sectors buffer_value p.buffer_step fuel with
      | none => .error "RecursionError: maximum recursion depth exceeded"
      | some (cands, bv2) =>
        let fc := filterCandidates ops p.upper_limit none 0 cands
        let ms : Option (List (SRow G)) × List (SRow G) :=
          if fc.2.1.isEmpty then (none, sectors)
          else
            let mv := move_selected_sectors none fc.2.1 sectors
            (some mv.1, mv.2)
        if ms.2.isEmpty || fc.2.2 then
          finalizeSeed ops seed bv2 fc.1 ms.1 ms.2 counter
        else
          get_sectors_by_seed ops p seed ms.2 bv2 ms.1 district_acdps counter fuel
    | some sel =>
      match dissolveGroups sel with
      | [] => .error "IndexError: single positional indexer is out-of-bounds"
      | grp :: _ =>
        let total := sumDom grp.2
        let dissolved := ops.buffer (ops.unionList (grp.2.map (·.geometry))) p.buffer_to_dissolve
        if sectors.any (fun s => ops.intersects s.geometry dissolved) then
          match get_candidates ops seed sectors buffer_value p.buffer_step fuel with
          | none => .error "RecursionError: maximum recursion depth exceeded"
          | some (cands, bv2) =>
            let fc := filterCandidates ops p.upper_limit (some dissolved) total cands
            let ms : Option (List (SRow G)) × List (SRow G) :=
              if fc.2.1.isEmpty then (some sel, sectors)
              else
                let mv := move_selected_sectors (some sel) fc.2.1 sectors
                (some mv.1, mv.2)
            if ms.2.isEmpty || fc.2.2 then
              finalizeSeed ops seed bv2 fc.1 ms.1 ms.2 counter
            else
              get_sectors_by_seed ops p seed ms.2 bv2 ms.1 district_acdps counter fuel
        else
          finalizeSeed ops seed buffer_value total (some sel) sectors counter

/-- The loop body state of `__put_sectors_in_holes` (lines 200-223), iterated
over the ACDP rows.  A `MultiPolygon` row is handed to `Series.explode()`,
which (shapely 2 geometries are not list-like) does not turn the row's
geometry into a component `Polygon`; the `exterior_ring` variable is therefore
only (re)assigned for `Polygon` rows and is otherwise the stale value of a
previous iteration — or unbound on the first such row, in which case
`if not exterior_ring.is_empty` raises `NameError`.  For a non-empty ring the
candidate orphans are the remaining sectors `covered_by`
`Polygon(exterior_ring)`, tagged (by the `sjoin` with `exterior_gdf`) with the
current row's `seed_id` and `acdp_id`, appended to the selected output and
removed from the remaining pool, and the current `acdp_id` is recorded as
changed. -/
def holesLoop {G : Type} (ops : GeoOps G) :
    List (AcdpRow G) → Option (List (SRow G)) → List (SRow G) → List Nat → Option G →
    Except String (Option (List (SRow G)) × List (SRow G) × List Nat)
  | [], selected?, sectors, changed, _ => .ok (selected?, sectors, changed)
  | acdp :: rest, selected?, sectors, changed, ext? =>
    let ext2? := if ops.isPolygon acdp.geometry then some (ops.exteriorRing acdp.geometry) else ext?
    match ext2? with
    | none => .error "NameError: name exterior_ring is not defined"
    | some ring =>
      if ops.isEmptyG ring then
        holesLoop ops rest selected? sectors changed ext2?
      else
        let exterior_pol := ops.polygonOfRing ring
        let candidate_sectors :=
          (sectors.filter (fun s => ops.coveredBy s.geometry exterior_pol)).map
            (fun s => { s with seed_id := some acdp.seed_id, acdp_id := some acdp.acdp_id })
        if candidate_sectors.isEmpty then
          holesLoop ops rest selected? sectors changed ext2?
        else
          let mv := move_selected_sectors selected? candidate_sectors sectors
          holesLoop ops rest (some mv.1) mv.2 (changed ++ [acdp.acdp_id]) ext2?

/-- `__put_sectors_in_holes` (lines 200-223): fold `holesLoop` over the ACDP
rows, starting with no selected rows, the full remaining pool, no changed ids
and the `exterior_ring` variable unbound. -/
def put_sectors_in_holes {G : Type} (ops : GeoOps G) (sectors : List (SRow G))
    (acdps : List (AcdpRow G)) :
    Except String (Option (List (SRow G)) × List (SRow G) × List Nat) :=
  holesLoop ops acdps none sectors [] none

/-- The rebuild loop of `district_sectors_grouping` (lines 176-189): for each
changed `acdp_id`, select from the assignment output the rows whose `seed_id`
occurs among the adopted rows and whose `acdp_id` matches; if any, remove the
matching ACDP, remove those rows, rebuild the ACDP from them with the same
`acdp_id` and append the rebuilt rows. -/
def rebuildLoop {G : Type} (ops : GeoOps G) (aux : List (SRow G)) :
    List Nat → List (AcdpRow G) → List (SRow G) → Nat →
    Except String (List (AcdpRow G) × List (SRow G) × Nat)
  | [], acdps, sbs, counter => .ok (acdps, sbs, counter)
  | acdpId :: rest, acdps, sbs, counter =>
    let sel := (sbs.filter (fun r => aux.any (fun a => a.seed_id == r.seed_id))).filter
      (fun r => r.acdp_id == some acdpId)
    if sel.isEmpty then
      rebuildLoop ops aux rest acdps sbs counter
    else
      match build_acdp_by_sectors ops counter (some sel) (some acdpId) with
      | .error e => .error e
      | .ok (newAcdps, sel2, counter2) =>
        rebuildLoop ops aux rest
          (acdps.filter (fun a => a.acdp_id ≠ acdpId) ++ newAcdps)
          (sbs.filter (fun r => ¬ sel.any (fun x => x.seed_id == r.seed_id)) ++ sel2)
          counter2

/-- The per-district mutable state of `district_sectors_grouping`:
`sectors_by_seeds`, `circle_seeds`, `district_acdps` (all starting as `None`),
the remaining sector pool, and the process-global `acdp_id` counter. -/
structure LoopState (G : Type) where
  sbs : Option (List (SRow G))
  circ : List (BufferSeed G)
  acdps : Option (List (AcdpRow G))
  remaining : List (SRow G)
  counter : Nat
deriving DecidableEq

/-- The seed loop of `district_sectors_grouping` (lines 153-167): skip a seed
whose point intersects some already selected sector geometry; otherwise grow
it with `__get_sectors_by_seed`, concatenate the outputs onto the state, and
break as soon as the remaining pool is empty. -/
def seedLoop {G : Type} (ops : GeoOps G) (p : Params) (fuel : Nat) :
    List (SeedRow G) → LoopState G → Except String (LoopState G)
  | [], st => .ok st
  | a_seed :: rest, st =>
    let skip := match st.sbs with
      | some rows => rows.any (fun r => ops.intersects r.geometry a_seed.geometry)
      | none => false
    if skip then
      seedLoop ops p fuel rest st
    else
      match get_sectors_by_seed ops p a_seed st.remaining 0 none st.acdps st.counter fuel with
      | .error e => .error e
      | .ok (g, counter2) =>
        let st2 : LoopState G :=
          { sbs := some (optList st.sbs ++ g.selected)
            circ := st.circ ++ [g.bufferSeed]
            acdps := some (optList st.acdps ++ g.acdps)
            remaining := g.remaining
            counter := counter2 }
        if st2.remaining.isEmpty then .ok st2 else seedLoop ops p fuel rest st2

/-- The four output layers of one district. -/
structure DistrictOut (G : Type) where
  sectors_by_seeds : List (SRow G)
  circle_seeds : List (BufferSeed G)
  orphan_sectors : Option (List (SRow G))
  district_acdps : List (AcdpRow G)
deriving DecidableEq

/-- `district_sectors_grouping` (lines 141-198).  After the seed loop, if
sectors remain they are offered to `__put_sectors_in_holes` (an `acdps` frame
still `None` raises `AttributeError`); leftover sectors become the orphans;
the adopted rows are concatenated onto the assignments (`pd.concat` with a
`None` member raises `TypeError`); changed ACDPs are rebuilt.  The final
`set_crs` calls raise `AttributeError` when the frames are still `None`. -/
def district_sectors_grouping {G : Type} (ops : GeoOps G) (p : Params)
    (seeds : List (SeedRow G)) (sectors : List (SRow G)) (counter fuel : Nat) :
    Except String (DistrictOut G × Nat) :=
  match seedLoop ops p fuel seeds
      { sbs := none, circ := [], acdps := none, remaining := sectors, counter := counter } with
  | .error e => .error e
  | .ok st =>
    if st.remaining.isEmpty then
      match st.sbs, st.acdps with
      | some sbs, some acdps =>
        .ok ({ sectors_by_seeds := sbs, circle_seeds := st.circ,
               orphan_sectors := none, district_acdps := acdps }, st.counter)
      | _, _ => .error "AttributeError: NoneType object has no attribute set_crs"
    else
      match st.acdps with
      | none => .error "AttributeError: NoneType object has no attribute iterrows"
      | some acdps =>
        match put_sectors_in_holes ops st.remaining acdps with
        | .error e => .error e
        | .ok (selAux?, remaining2, changed) =>
          let orphans? : Option (List (SRow G)) :=
            if remaining2.isEmpty then none else some remaining2
          match st.sbs, selAux? with
          | some sbs0, some selAux =>
            match rebuildLoop ops selAux changed acdps (sbs0 ++ selAux) st.counter with
            | .error e => .error e
            | .ok (acdps2, sbs2, counter2) =>
              .ok ({ sectors_by_seeds := sbs2, circle_seeds := st.circ,
                     orphan_sectors := orphans?, district_acdps := acdps2 }, counter2)
          | some _, none => .error "TypeError: cannot concatenate object of type NoneType"
          | none, _ => .error "NameError: name selected_sectors is not defined"

/-! ### Concrete instances

Finite tables over `G := Nat` used to run the embedded pipeline on explicit
inputs.  Geometry identifiers are arbitrary labels; each table defines just
the geometric facts the corresponding scenario needs. -/

/-- The default configuration: `SeedProcess()` with `buffer_step=5`,
`percent_range=10`, `limit_to_stop=5000`, `lower_limit=None`, giving
`upper_limit = 5500` and `lower_limit = 500`. -/
def pDefault : Params := SeedProcess.init 5 10 5000 none

/-- A trivial geometry table (everything constant). -/
def cOpsTriv : GeoOps Nat :=
  { intersects := fun _ _ => false
    buffer := fun g _ => g
    unionList := fun _ => 0
    area := fun _ => 0
    coveredBy := fun _ _ => false
    contains := fun _ _ => false
    isPolygon := fun _ => true
    exteriorRing := fun g => g
    isEmptyG := fun _ => false
    polygonOfRing := fun g => g }

/-- Geometry table for the hole-repair scenarios: the seed point is geometry
0; sector geometries are 1 and 2; `buffer 0 5 = 3` is the first probe disc
(which meets geometry 1 only); `unionList [1] = 10` is the dissolved ACDP;
`buffer 10 (1/2) = 4` is its epsilon buffer (which meets nothing, ending the
growth); `exteriorRing 10 = 11`, `polygonOfRing 11 = 12`, and geometry 2 is
covered by 12 (it lies in the ACDP's hole); `unionList [1, 2] = 13` is the
rebuilt ACDP geometry. -/
def cOpsA : GeoOps Nat :=
  { intersects := fun a b => decide (a = 1 ∧ b = 3)
    buffer := fun g v =>
      if g = 0 ∧ v = 5 then 3 else if g = 10 ∧ v = 1/2 then 4 else 99
    unionList := fun gs => if gs = [1] then 10 else if gs = [1, 2] then 13 else 98
    area := fun _ => 0
    coveredBy := fun s pol => decide (s = 2 ∧ pol = 12)
    contains := fun _ _ => false
    isPolygon := fun _ => true
    exteriorRing := fun g => if g = 10 then 11 else 97
    isEmptyG := fun _ => false
    polygonOfRing := fun r => if r = 11 then 12 else 96 }

/-- The seed used by the concrete scenarios (seed_id 7, point geometry 0). -/
def seedA : SeedRow Nat := { seed_id := 7, geometry := 0 }

/-- Sector of 5499 households on geometry 1. -/
def secA : SRow Nat :=
  { cd_setor := "A", cd_dist := "d", num_dom := 5499, geometry := 1,
    seed_id := none, acdp_id := none }

/-- Sector of 100 households on geometry 2 (the hole). -/
def secO : SRow Nat :=
  { cd_setor := "O", cd_dist := "d", num_dom := 100, geometry := 2,
    seed_id := none, acdp_id := none }

/-- Sector of 6000 households (at least `upper_limit`) on geometry 1. -/
def secB : SRow Nat :=
  { cd_setor := "B", cd_dist := "d", num_dom := 6000, geometry := 1,
    seed_id := none, acdp_id := none }

/-- Sector of 100 households on geometry 1. -/
def secX : SRow Nat :=
  { cd_setor := "x", cd_dist := "d", num_dom := 100, geometry := 1,
    seed_id := none, acdp_id := none }

/-- Geometry table for the zero-household contiguity scenario: seed point 0;
sector geometries 1 (`z`, zero households), 2 (`c`) and 3 (`w`).  The probe
discs are `buffer 0 5 = 4` (meets 1), `buffer 0 10 = 7` (meets 2) and
`buffer 0 15 = 11` (meets 3).  The dissolved geometries are `unionList [1] = 5`
with epsilon buffer `6` (which meets 3 but NOT 2) and `unionList [1, 2] = 8`
with epsilon buffer `9` (which meets 3). -/
def cOpsD : GeoOps Nat :=
  { intersects := fun a b =>
      decide ((a = 1 ∧ b = 4) ∨ (a = 3 ∧ b = 6) ∨ (a = 2 ∧ b = 7) ∨
        (a = 3 ∧ b = 9) ∨ (a = 3 ∧ b = 11))
    buffer := fun g v =>
      if g = 0 ∧ v = 5 then 4 else if g = 0 ∧ v = 10 then 7
      else if g = 0 ∧ v = 15 then 11 else if g = 5 ∧ v = 1/2 then 6
      else if g = 8 ∧ v = 1/2 then 9 else 99
    unionList := fun gs =>
      if gs = [1] then 5 else if gs = [1, 2] then 8
      else if gs = [1, 2, 3] then 14 else 98
    area := fun _ => 0
    coveredBy := fun _ _ => false
    contains := fun _ _ => false
    isPolygon := fun _ => true
    exteriorRing := fun g => g
    isEmptyG := fun _ => false
    polygonOfRing := fun g => g }

/-- Sector with zero households on geometry 1. -/
def secZ : SRow Nat :=
  { cd_setor := "z", cd_dist := "d", num_dom := 0, geometry := 1,
    seed_id := none, acdp_id := none }

/-- Sector of 60 households on geometry 2 (not contiguous to `z`). -/
def secC : SRow Nat :=
  { cd_setor := "c", cd_dist := "d", num_dom := 60, geometry := 2,
    seed_id := none, acdp_id := none }

/-- Sector of 70 households on geometry 3 (contiguous to `z`). -/
def secW : SRow Nat :=
  { cd_setor := "w", cd_dist := "d", num_dom := 70, geometry := 3,
    seed_id := none, acdp_id := none }

/-- Geometry table for the depletion scenario: seed point 0; sector geometries
1 (`p`, 30 households) and 2 (`q`, 30 households); `buffer 0 5 = 3` meets both;
`unionList [1] = 5` has epsilon buffer `6`, which meets 2; `buffer 0 10 = 7`
meets 2; `unionList [1, 2] = 8`. -/
def cOpsE : GeoOps Nat :=
  { intersects := fun a b =>
      decide ((a = 1 ∧ b = 3) ∨ (a = 2 ∧ b = 3) ∨ (a = 2 ∧ b = 6) ∨ (a = 2 ∧ b = 7))
    buffer := fun g v =>
      if g = 0 ∧ v = 5 then 3 else if g = 0 ∧ v = 10 then 7
      else if g = 5 ∧ v = 1/2 then 6 else 99
    unionList := fun gs => if gs = [1] then 5 else if gs = [1, 2] then 8 else 98
    area := fun _ => 0
    coveredBy := fun _ _ => false
    contains := fun _ _ => false
    isPolygon := fun _ => true
    exteriorRing := fun g => g
    isEmptyG := fun _ => false
    polygonOfRing := fun g => g }

/-- Sector of 30 households on geometry 1. -/
def secP : SRow Nat :=
  { cd_setor := "p", cd_dist := "d", num_dom := 30, geometry := 1,
    seed_id := none, acdp_id := none }

/-- Sector of 30 households on geometry 2. -/
def secQ : SRow Nat :=
  { cd_setor := "q", cd_dist := "d", num_dom := 30, geometry := 2,
    seed_id := none, acdp_id := none }

/-- Geometry table for the skip-if-covered scenario: the containment and
intersection predicates agree and hold exactly between geometry 1 (a selected
sector) and geometry 0 (a seed point). -/
def cOpsK : GeoOps Nat :=
  { intersects := fun a b => decide (a = 1 ∧ b = 0)
    buffer := fun g _ => g
    unionList := fun _ => 0
    area := fun _ => 0
    coveredBy := fun _ _ => false
    contains := fun a b => decide (a = 1 ∧ b = 0)
    isPolygon := fun _ => true
    exteriorRing := fun g => g
    isEmptyG := fun _ => false
    polygonOfRing := fun g => g }

/-- The candidate set `get_candidates` would compute on its `(j+1)`-th probe
from a given start: the remaining sectors whose geometry intersects the disc
of radius `buffer_value + (j+1)*buffer_step` around the seed point. -/
def candsAt {G : Type} (ops : GeoOps G) (seed : SeedRow G) (sectors : List (SRow G))
    (buffer_value buffer_step : ℚ) (j : Nat) : List (SRow G) :=
  sectors.filter (fun s =>
    ops.intersects s.geometry (ops.buffer seed.geometry (buffer_value + (j + 1) * buffer_step)))

/-- Index of the first probe (within the given fuel) whose candidate set is
non-empty. -/
def firstHit {G : Type} (ops : GeoOps G) (seed : SeedRow G) (sectors : List (SRow G))
    (buffer_value buffer_step : ℚ) (fuel : Nat) : Option Nat :=
  (List.range fuel).find? (fun j => !(candsAt ops seed sectors buffer_value buffer_step j).isEmpty)

/-- A geometry table on which nothing is a `Polygon` (so an ACDP row models a
`MultiPolygon` geometry). -/
def cOpsF : GeoOps Nat := { cOpsTriv with isPolygon := fun _ => false }

/-- An ACDP row whose dissolved geometry is a MultiPolygon (geometry 5 of
`cOpsF`). -/
def acdpMP : AcdpRow Nat :=
  { seed_id := 7, cd_dist := "d", num_dom := 900, geometry := 5,
    n_sectors := 1, area_m2 := 0, cd_sectors := "A", acdp_id := 1 }

/-- The sector `secX` tagged with seed 7 by the candidate spatial join. -/
def secXs : SRow Nat := { secX with seed_id := some 7 }

/-- The ACDP built from `secX` by seed 7 under `cOpsA`. -/
def acdpX : AcdpRow Nat :=
  { seed_id := 7, cd_dist := "d", num_dom := 100, geometry := 10,
    n_sectors := 1, area_m2 := 0, cd_sectors := "x", acdp_id := 1 }

/-- The growth result of seed 7 over `[secX]` under `cOpsA`. -/
def gX : GrowthOk Nat :=
  { acdps := [{ seed_id := 7, cd_dist := "d", num_dom := 100, geometry := 10,
                n_sectors := 1, area_m2 := 0, cd_sectors := "x", acdp_id := 1 }]
    selected := [{ secX with seed_id := some 7, acdp_id := some 1 }]
    remaining := []
    bufferSeed := { seed_id := 7, geometry := 3, buffer_val := 5, num_dom := 100 } }

/-- The district output of seed 7 over `[secX]` under `cOpsA`. -/
def outX : DistrictOut Nat :=
  { sectors_by_seeds := [{ secX with seed_id := some 7, acdp_id := some 1 }]
    circle_seeds := [{ seed_id := 7, geometry := 3, buffer_val := 5, num_dom := 100 }]
    orphan_sectors := none
    district_acdps := [{ seed_id := 7, cd_dist := "d", num_dom := 100, geometry := 10,
                         n_sectors := 1, area_m2 := 0, cd_sectors := "x", acdp_id := 1 }] }

/-- The growth result of the depletion scenario (`cOpsE`, sectors `p` and
`q`): both sectors are absorbed, the pool is depleted, and the household total
60 is far below the default `lower_limit` of 500. -/
def gE : GrowthOk Nat :=
  { acdps := [{ seed_id := 7, cd_dist := "d", num_dom := 60, geometry := 8,
                n_sectors := 2, area_m2 := 0, cd_sectors := "p,q", acdp_id := 1 }]
    selected := [{ secP with seed_id := some 7, acdp_id := some 1 },
                 { secQ with seed_id := some 7, acdp_id := some 1 }]
    remaining := []
    bufferSeed := { seed_id := 7, geometry := 7, buffer_val := 10, num_dom := 60 } }

/-- A sector row with `seed_id` already set, used for the dissolve witnesses. -/
def rT : SRow Nat :=
  { cd_setor := "x", cd_dist := "d", num_dom := 3, geometry := 0,
    seed_id := some 1, acdp_id := none }

/-- A second sector row of the same seed. -/
def rU : SRow Nat :=
  { cd_setor := "y", cd_dist := "d", num_dom := 4, geometry := 0,
    seed_id := some 1, acdp_id := none }

/-- The ACDP built from `[rT]` under `cOpsTriv` with a fresh id from counter
0. -/
def aT : AcdpRow Nat :=
  { seed_id := 1, cd_dist := "d", num_dom := 3, geometry := 0,
    n_sectors := 1, area_m2 := 0, cd_sectors := "x", acdp_id := 1 }

/-- The ACDP built from `[rT, rU]` under `cOpsTriv` with a fresh id from
counter 0. -/
def aT2 : AcdpRow Nat :=
  { seed_id := 1, cd_dist := "d", num_dom := 7, geometry := 0,
    n_sectors := 2, area_m2 := 0, cd_sectors := "x,y", acdp_id := 1 }

/-- The row `rT` stamped with the fresh `acdp_id` 1. -/
def rT1 : SRow Nat := { rT with acdp_id := some 1 }

/-- The row `rU` stamped with the fresh `acdp_id` 1. -/
def rU1 : SRow Nat := { rU with acdp_id := some 1 }

/-- A candidate row of 110 households (over a band ceiling of 100). -/
def rV : SRow Nat :=
  { cd_setor := "v", cd_dist := "d", num_dom := 110, geometry := 0,
    seed_id := none, acdp_id := none }

/-- The sector `secC` tagged with seed 7 by the candidate spatial join. -/
def secCs : SRow Nat := { secC with seed_id := some 7 }

/-- A seed (id 9) whose point is geometry 0, covered by the already assigned
sector `secX` under `cOpsK`. -/
def seedK : SeedRow Nat := { seed_id := 9, geometry := 0 }

/-- A district-solver state in which `secX` has already been assigned. -/
def stK : LoopState Nat :=
  { sbs := some [secX], circ := [], acdps := none, remaining := [], counter := 0 }

/-- The predecessor of a growth state: the invariant `__get_sectors_by_seed`
maintains on its `selected_sectors` argument when growing one seed — the
selected rows are non-empty, all tagged with the seed's id, and their
household sum is strictly below the upper limit. -/
def SelInv {G : Type} (seed : SeedRow G) (upper : ℚ) : Option (List (SRow G)) → Prop
  | none => True
  | some sel => sel ≠ [] ∧ (∀ r ∈ sel, r.seed_id = some seed.seed_id) ∧ sumDom sel < upper

/-- A sector row's tags point at one of the ACDP records: some ACDP carries
exactly this row's `seed_id` and `acdp_id`. -/
def TagRef {G : Type} (acdps : List (AcdpRow G)) (r : SRow G) : Prop :=
  ∃ a ∈ acdps, r.seed_id = some a.seed_id ∧ r.acdp_id = some a.acdp_id

/-- The district solver's loop invariant: the codes of the assigned rows plus
the remaining pool are a permutation of the district's input sector codes;
every assigned row's tags point at one of the accumulated ACDPs; the
accumulated ACDPs have pairwise distinct seed ids and pairwise distinct ACDP
ids, all bounded by the process counter. -/
def StInv {G : Type} (inputCodes : List String) (st : LoopState G) : Prop :=
  List.Perm (selCodes (optList st.sbs) ++ selCodes st.remaining) inputCodes
  ∧ (∀ r ∈ optList st.sbs, TagRef (optList st.acdps) r)
  ∧ ((optList st.acdps).map (·.seed_id)).Nodup
  ∧ ((optList st.acdps).map (·.acdp_id)).Nodup
  ∧ (∀ a ∈ optList st.acdps, a.acdp_id ≤ st.counter)

/-- The facts established about one successful run of
`__get_sectors_by_seed`: the process counter advanced by exactly one; exactly
one ACDP was built, tagged with the seed's id, the fresh `acdp_id`, and a
household total strictly below the upper limit; every selected row carries
the seed's id and the fresh `acdp_id`; the codes of the selected rows plus
the remaining pool are a permutation of the incoming selected rows plus the
incoming pool; and the remaining pool's codes are a sublist of the incoming
pool's codes. -/
def GrowthConcl {G : Type} (p : Params) (seed : SeedRow G) (c : Nat)
    (sel? : Option (List (SRow G))) (sectors : List (SRow G))
    (g : GrowthOk G) (c2 : Nat) : Prop :=
  c2 = c + 1
  ∧ (∃ a, g.acdps = [a] ∧ a.seed_id = seed.seed_id ∧ a.acdp_id = c + 1
      ∧ a.num_dom < p.upper_limit)
  ∧ (∀ r ∈ g.selected, r.seed_id = some seed.seed_id ∧ r.acdp_id = some (c + 1))
  ∧ List.Perm (selCodes g.selected ++ selCodes g.remaining)
      (selCodes (optList sel?) ++ selCodes sectors)
  ∧ List.Sublist (selCodes g.remaining) (selCodes sectors)

/-! ### Lemmas about the dissolve grouping -/

lemma firstDedupAux_of_mem : ∀ (l seen : List Nat), (∀ x ∈ l, x ∈ seen) →
    firstDedupAux l seen = [] := by
  intro l
  induction l with
  | nil => intro seen _; rfl
  | cons a t ih =>
    intro seen h
    simp only [firstDedupAux]
    rw [if_pos (h a (List.mem_cons_self a t))]
    exact ih seen (fun x hx => h x (List.mem_cons_of_mem a hx))

lemma dissolveKeys_uniform {G : Type} (k : Nat) (sel : List (SRow G)) (hne : sel ≠ [])
    (h : ∀ r ∈ sel, r.seed_id = some k) : dissolveKeys sel = [k] := by
  cases sel with
  | nil => exact absurd rfl hne
  | cons r rest =>
    have hr : r.seed_id = some k := h r (List.mem_cons_self r rest)
    simp only [dissolveKeys, List.filterMap_cons, hr]
    simp only [firstDedupAux, List.not_mem_nil, if_false]
    have : firstDedupAux (rest.filterMap (·.seed_id)) [k] = [] := by
      apply firstDedupAux_of_mem
      intro x hx
      rcases List.mem_filterMap.1 hx with ⟨r2, hr2, hx2⟩
      have := h r2 (List.mem_cons_of_mem r hr2)
      rw [this] at hx2
      simp only [Option.some.injEq] at hx2
      simp [hx2]
    rw [this]

lemma groupRows_uniform {G : Type} (k : Nat) (sel : List (SRow G))
    (h : ∀ r ∈ sel, r.seed_id = some k) : groupRows sel k = sel := by
  apply List.filter_eq_self.mpr
  intro r hr
  simp [h r hr]

lemma dissolveGroups_uniform {G : Type} (k : Nat) (sel : List (SRow G)) (hne : sel ≠ [])
    (h : ∀ r ∈ sel, r.seed_id = some k) : dissolveGroups sel = [(k, sel)] := by
  simp only [dissolveGroups, dissolveKeys_uniform k sel hne h, List.map_cons, List.map_nil,
    groupRows_uniform k sel h]

/-! ### Lemmas about `__build_acdp_by_sectors` -/

lemma build_uniform_none {G : Type} (ops : GeoOps G) (c : Nat) (sel : List (SRow G)) (k : Nat)
    (hne : sel ≠ []) (h : ∀ r ∈ sel, r.seed_id = some k) :
    build_acdp_by_sectors ops c (some sel) none =
      .ok ([{ seed_id := k, cd_dist := (sel.map (·.cd_dist)).headI, num_dom := sumDom sel,
              geometry := ops.unionList (sel.map (·.geometry)), n_sectors := sel.length,
              area_m2 := round2 (ops.area (ops.unionList (sel.map (·.geometry)))),
              cd_sectors := String.intercalate "," (sel.map (·.cd_setor)), acdp_id := c + 1 }],
        sel.map (fun r => { r with acdp_id := some (c + 1) }), c + 1) := by
  simp only [build_acdp_by_sectors, dissolveGroups_uniform k sel hne h, List.map_cons,
    List.map_nil]

lemma build_uniform_some {G : Type} (ops : GeoOps G) (c : Nat) (sel : List (SRow G)) (k i : Nat)
    (hne : sel ≠ []) (h : ∀ r ∈ sel, r.seed_id = some k) :
    build_acdp_by_sectors ops c (some sel) (some i) =
      .ok ([{ seed_id := k, cd_dist := (sel.map (·.cd_dist)).headI, num_dom := sumDom sel,
              geometry := ops.unionList (sel.map (·.geometry)), n_sectors := sel.length,
              area_m2 := round2 (ops.area (ops.unionList (sel.map (·.geometry)))),
              cd_sectors := String.intercalate "," (sel.map (·.cd_setor)), acdp_id := i }],
        sel.map (fun r => { r with acdp_id := some i }), c) := by
  simp only [build_acdp_by_sectors, dissolveGroups_uniform k sel hne h, List.map_cons,
    List.map_nil]

lemma build_ok_shape {G : Type} (ops : GeoOps G) (c : Nat) (sel? : Option (List (SRow G)))
    (id? : Option Nat) (acdps : List (AcdpRow G)) (sel2 : List (SRow G)) (c2 : Nat)
    (hok : build_acdp_by_sectors ops c sel? id? = .ok (acdps, sel2, c2)) :
    acdps ≠ [] ∧
    c2 = (match id? with | none => c + 1 | some _ => c) ∧
    (∀ a ∈ acdps, a.acdp_id = (match id? with | none => c + 1 | some i => i)) := by
  cases sel? with
  | none => exact absurd hok (by simp [build_acdp_by_sectors])
  | some sel =>
    cases id? with
    | none =>
      simp only [build_acdp_by_sectors] at hok
      cases hg : dissolveGroups sel with
      | nil => rw [hg] at hok; exact absurd hok (by simp)
      | cons g0 gs =>
        rw [hg] at hok
        simp only [Except.ok.injEq, Prod.mk.injEq] at hok
        obtain ⟨ha, _, hc⟩ := hok
        refine ⟨by simp [← ha], hc.symm, ?_⟩
        intro a hmem
        rw [← ha] at hmem
        rcases List.mem_map.1 hmem with ⟨g, _, hgg⟩
        rw [← hgg]
    | some i =>
      simp only [build_acdp_by_sectors] at hok
      cases hg : dissolveGroups sel with
      | nil => rw [hg] at hok; exact absurd hok (by simp)
      | cons g0 gs =>
        rw [hg] at hok
        simp only [Except.ok.injEq, Prod.mk.injEq] at hok
        obtain ⟨ha, _, hc⟩ := hok
        refine ⟨by simp [← ha], hc.symm, ?_⟩
        intro a hmem
        rw [← ha] at hmem
        rcases List.mem_map.1 hmem with ⟨g, _, hgg⟩
        rw [← hgg]

/-! ### String evaluation facts used by the concrete runs -/

lemma icA : (",".intercalate ["A"]) = "A" := by decide

lemma icAO : (",".intercalate ["A", "O"]) = "A,O" := by decide

lemma neAO : ("A" : String) ≠ "O" := by decide

lemma iczcw : (",".intercalate ["z", "c", "w"]) = "z,c,w" := by decide

lemma nezc : ("z" : String) ≠ "c" := by decide

lemma nezw : ("z" : String) ≠ "w" := by decide

lemma necw : ("c" : String) ≠ "w" := by decide

lemma icx : (",".intercalate ["x"]) = "x" := by decide

lemma icpq : (",".intercalate ["p", "q"]) = "p,q" := by decide

lemma nepq : ("p" : String) ≠ "q" := by decide

/-! ### Concrete evaluations settling the falsifiable claims -/

/-- Claim C1 is false on the code: an ACDP rebuilt by the hole repair after
adopting an orphan sector can reach or exceed `upper_limit`.  With the default
configuration (`upper_limit = 5500`), a seed that absorbs a 5499-household
sector whose dissolved polygon strictly covers a 100-household orphan yields,
after `__put_sectors_in_holes` and the rebuild of the changed ACDP, a final
output whose single ACDP has `num_dom = 5599 ≥ 5500 = upper_limit`. -/
theorem claim_C1_counterexample :
    (district_sectors_grouping cOpsA pDefault [seedA] [secA, secO] 0 20).map
      (fun x => (x.1.district_acdps.map (fun a => a.num_dom), x.2)) =
        .ok ([(5599 : ℚ)], 1)
    ∧ ¬ ((5599 : ℚ) < pDefault.upper_limit) := by
  constructor
  · norm_num [district_sectors_grouping, seedLoop, get_sectors_by_seed, get_candidates,
      filterCandidates, move_selected_sectors, finalizeSeed, build_acdp_by_sectors,
      put_sectors_in_holes, holesLoop, rebuildLoop, dissolveGroups, dissolveKeys, groupRows,
      firstDedupAux, sumDom, selCodes, optList, intersectsO, round2, cOpsA, pDefault,
      SeedProcess.init, seedA, secA, secO, Except.map, icA, icAO, neAO, Ne.symm neAO]
  · norm_num [pDefault, SeedProcess.init]

/-- Claim C2's failing input evaluated on the code: a seed whose first probe
candidate already has `num_dom ≥ upper_limit` (6000 ≥ 5500) ends the candidate
filter pass with an empty confirmed list, so the growth terminates with
`selected_sectors` still `None`, and `__get_sectors_by_seed` (line 336) calls
`__build_acdp_by_sectors` with `selected_sectors=None`, raising
`AttributeError` (line 251, `None.dissolve`) instead of skipping the seed. -/
theorem claim_C2_theorem :
    district_sectors_grouping cOpsA pDefault [seedA] [secB] 0 20 =
      .error "AttributeError: NoneType object has no attribute dissolve" := by
  norm_num [district_sectors_grouping, seedLoop, get_sectors_by_seed, get_candidates,
    filterCandidates, move_selected_sectors, finalizeSeed, build_acdp_by_sectors,
    intersectsO, cOpsA, pDefault, SeedProcess.init, seedA, secB]

/-- Claim C9's failing input evaluated on the code: when the first ACDP row
reaching `__put_sectors_in_holes` has a MultiPolygon geometry, the
`Series.explode()` call (line 210) does not replace the row's geometry with a
component `Polygon`, the branch on line 211 does not run, the `exterior_ring`
variable is never assigned, and line 213 raises `NameError` — no component
polygon is processed. -/
theorem claim_C9_theorem :
    put_sectors_in_holes cOpsF [secO] [acdpMP] =
      .error "NameError: name exterior_ring is not defined" := by
  norm_num [put_sectors_in_holes, holesLoop, cOpsF, cOpsTriv, acdpMP]

/-- Claim C5 is false on the code: the admissibility gate of the candidate
filter pass is `total == 0`, not `selected is empty`.  First conjunct: with a
non-`None` dissolved geometry (geometry 6, the epsilon-buffered dissolve of a
selected zero-household sector) and `total = 0`, the pass appends candidate
`c` although `c.geometry` does not intersect the dissolved geometry.  Second
conjunct: the full pipeline on that scenario (zero-household sector `z`, then
non-contiguous `c`, then `w`) assigns `c` to the seed's ACDP. -/
theorem claim_C5_counterexample :
    (filterCandidates cOpsD pDefault.upper_limit (some 6) 0 [secCs] = (60, [secCs], false)
      ∧ cOpsD.intersects secCs.geometry 6 = false)
    ∧ (district_sectors_grouping cOpsD pDefault [seedA] [secZ, secC, secW] 0 20).map
        (fun x => (selCodes x.1.sectors_by_seeds, x.1.orphan_sectors)) =
          .ok (["z", "c", "w"], none) := by
  refine ⟨⟨?_, by decide⟩, ?_⟩
  · norm_num [filterCandidates, intersectsO, cOpsD, pDefault, SeedProcess.init, secCs, secC]
  · norm_num [district_sectors_grouping, seedLoop, get_sectors_by_seed, get_candidates,
      filterCandidates, move_selected_sectors, finalizeSeed, build_acdp_by_sectors,
      dissolveGroups, dissolveKeys, groupRows, firstDedupAux, sumDom, selCodes, optList,
      intersectsO, round2, cOpsD, pDefault, SeedProcess.init, seedA, secZ, secC, secW,
      Except.map, iczcw, nezc, nezw, necw, Ne.symm nezc, Ne.symm nezw, Ne.symm necw]

/-! ### The candidate filter pass -/

lemma isEmpty_map {α β : Type} (f : α → β) (l : List α) :
    (l.map f).isEmpty = l.isEmpty := by
  cases l <;> rfl

lemma sumDom_nil {G : Type} : sumDom ([] : List (SRow G)) = 0 := rfl

lemma sumDom_cons {G : Type} (r : SRow G) (l : List (SRow G)) :
    sumDom (r :: l) = r.num_dom + sumDom l := by
  simp [sumDom]

lemma sumDom_append {G : Type} (l1 l2 : List (SRow G)) :
    sumDom (l1 ++ l2) = sumDom l1 + sumDom l2 := by
  simp [sumDom]

/-- Bookkeeping facts about one filter pass: the final total is the initial
total plus the households of the confirmed rows; the confirmed rows are a
sublist of the candidates; a non-empty confirmed list keeps the final total
strictly below the upper limit; an empty one leaves the total unchanged. -/
lemma filterCandidates_spec {G : Type} (ops : GeoOps G) (u : ℚ) (d? : Option G) :
    ∀ (cands : List (SRow G)) (t : ℚ),
      (filterCandidates ops u d? t cands).1 =
        t + sumDom (filterCandidates ops u d? t cands).2.1
      ∧ List.Sublist (filterCandidates ops u d? t cands).2.1 cands
      ∧ ((filterCandidates ops u d? t cands).2.1 ≠ [] →
          (filterCandidates ops u d? t cands).1 < u)
      ∧ ((filterCandidates ops u d? t cands).2.1 = [] →
          (filterCandidates ops u d? t cands).1 = t) := by
  intro cands
  induction cands with
  | nil =>
    intro t
    refine ⟨by simp [filterCandidates, sumDom], List.Sublist.refl _, ?_, fun _ => rfl⟩
    intro h
    exact absurd rfl h
  | cons row rest ih =>
    intro t
    by_cases hadm : (t == 0 || intersectsO ops row.geometry d?) = true
    · by_cases hfit : t + row.num_dom < u
      · have heq : filterCandidates ops u d? t (row :: rest) =
            ((filterCandidates ops u d? (t + row.num_dom) rest).1,
             row :: (filterCandidates ops u d? (t + row.num_dom) rest).2.1,
             (filterCandidates ops u d? (t + row.num_dom) rest).2.2) := by
          simp only [filterCandidates]
          rw [if_pos hadm, if_pos hfit]
        obtain ⟨ih1, ih2, ih3, ih4⟩ := ih (t + row.num_dom)
        rw [heq]
        refine ⟨?_, List.Sublist.cons₂ row ih2, fun _ => ?_, ?_⟩
        · rw [sumDom_cons, ih1]
          ring
        · rcases h2 : (filterCandidates ops u d? (t + row.num_dom) rest).2.1 with _ | _
          · rw [ih4 h2]
            exact hfit
          · exact ih3 (by rw [h2]; simp)
        · intro h
          exact absurd h (by simp)
      · have heq : filterCandidates ops u d? t (row :: rest) = (t, [], true) := by
          simp only [filterCandidates]
          rw [if_pos hadm, if_neg hfit]
        rw [heq]
        exact ⟨by rw [sumDom_nil]; ring, List.Sublist.cons row (List.nil_sublist rest),
          fun h => absurd rfl h, fun _ => rfl⟩
    · have heq : filterCandidates ops u d? t (row :: rest) =
          filterCandidates ops u d? t rest := by
        simp only [filterCandidates]
        rw [if_neg hadm]
      obtain ⟨ih1, ih2, ih3, ih4⟩ := ih t
      rw [heq]
      exact ⟨ih1, List.Sublist.cons row ih2, ih3, ih4⟩

/-- Claim C5 amended: during one growth probe's candidate filter pass, a
candidate `c` is appended to the selected rows and its households added
exactly when it passes the gate `total = 0 (no households accumulated yet —
the selected list may be non-empty when its members have zero households) or
c's geometry intersects the epsilon-buffered dissolved geometry (taken as
non-intersecting while the dissolved geometry is still None)` and
`total + c.num_dom < upper_limit`; the first candidate passing the gate with
`total + c.num_dom ≥ upper_limit` sets `the_end` and stops the inner
iteration; a candidate failing the gate is skipped and the iteration
continues. -/
theorem claim_C5_amended {G : Type} (ops : GeoOps G) (u : ℚ) (d? : Option G) (t : ℚ)
    (c : SRow G) (rest : List (SRow G)) :
    ((t = 0 ∨ intersectsO ops c.geometry d? = true) → t + c.num_dom < u →
      filterCandidates ops u d? t (c :: rest) =
        ((filterCandidates ops u d? (t + c.num_dom) rest).1,
         c :: (filterCandidates ops u d? (t + c.num_dom) rest).2.1,
         (filterCandidates ops u d? (t + c.num_dom) rest).2.2))
    ∧ ((t = 0 ∨ intersectsO ops c.geometry d? = true) → ¬ (t + c.num_dom < u) →
      filterCandidates ops u d? t (c :: rest) = (t, [], true))
    ∧ (¬ (t = 0 ∨ intersectsO ops c.geometry d? = true) →
      filterCandidates ops u d? t (c :: rest) = filterCandidates ops u d? t rest) := by
  have hb : ∀ (h : t = 0 ∨ intersectsO ops c.geometry d? = true),
      (t == 0 || intersectsO ops c.geometry d?) = true := by
    intro h
    rcases h with h | h
    · simp [h]
    · simp [h]
  refine ⟨?_, ?_, ?_⟩
  · intro h1 h2
    simp only [filterCandidates]
    rw [if_pos (hb h1), if_pos h2]
  · intro h1 h2
    simp only [filterCandidates]
    rw [if_pos (hb h1), if_neg h2]
  · intro h1
    simp only [filterCandidates]
    rw [if_neg ?_]
    intro hby
    rw [Bool.or_eq_true] at hby
    rcases hby with h | h
    · exact h1 (Or.inl (by exact_mod_cast beq_iff_eq.1 h))
    · exact h1 (Or.inr h)

/-- Witness for the amended claim C5: a lone 110-household candidate against
`upper_limit = 100` is admissible (`total = 0`) but over the ceiling, so the
pass stops immediately with `the_end` set and nothing confirmed. -/
theorem claim_C5_witness :
    filterCandidates cOpsTriv 100 none 0 [rV] = (0, [], true) :=
  (claim_C5_amended cOpsTriv 100 none 0 rV []).2.1 (Or.inl rfl)
    (by norm_num [rV])

/-! ### The probe recursion `get_candidates` -/

lemma candsAt_shift {G : Type} (ops : GeoOps G) (seed : SeedRow G) (sectors : List (SRow G))
    (bv step : ℚ) (j : Nat) :
    candsAt ops seed sectors bv step (j + 1) = candsAt ops seed sectors (bv + step) step j := by
  have h : bv + (((j + 1 : Nat) : ℚ) + 1) * step = bv + step + (((j : Nat) : ℚ) + 1) * step := by
    push_cast
    ring
  simp only [candsAt, h]

lemma candsAt_zero {G : Type} (ops : GeoOps G) (seed : SeedRow G) (sectors : List (SRow G))
    (bv step : ℚ) :
    candsAt ops seed sectors bv step 0 =
      sectors.filter (fun s => ops.intersects s.geometry (ops.buffer seed.geometry (bv + step))) := by
  have h : bv + (((0 : Nat) : ℚ) + 1) * step = bv + step := by
    push_cast
    ring
  simp only [candsAt, h]

lemma get_candidates_firstHit {G : Type} (ops : GeoOps G) (seed : SeedRow G)
    (sectors : List (SRow G)) (step : ℚ) :
    ∀ (fuel : Nat) (bv : ℚ) (m : Nat),
      firstHit ops seed sectors bv step fuel = some m →
      (∀ j, j < m → candsAt ops seed sectors bv step j = [])
      ∧ candsAt ops seed sectors bv step m ≠ []
      ∧ get_candidates ops seed sectors bv step fuel =
          some ((candsAt ops seed sectors bv step m).map
            (fun s => { s with seed_id := some seed.seed_id }), bv + ((m : ℚ) + 1) * step) := by
  intro fuel
  induction fuel with
  | zero =>
    intro bv m h
    exact absurd h (by simp [firstHit])
  | succ n ih =>
    intro bv m h
    rw [firstHit, List.range_succ_eq_map] at h
    by_cases h0 : (candsAt ops seed sectors bv step 0).isEmpty
    · rw [List.find?_cons_of_neg _ (by simp [h0]), List.find?_map] at h
      rcases Option.map_eq_some'.1 h with ⟨m', hm', hmeq⟩
      have hpred : (fun j => !(candsAt ops seed sectors bv step (Nat.succ j)).isEmpty) =
          (fun j => !(candsAt ops seed sectors (bv + step) step j).isEmpty) := by
        funext j
        rw [candsAt_shift]
      rw [show ((fun j => !(candsAt ops seed sectors bv step j).isEmpty) ∘ Nat.succ) =
          (fun j => !(candsAt ops seed sectors bv step (Nat.succ j)).isEmpty) from rfl,
        hpred] at hm'
      obtain ⟨ihmin, ihne, iheq⟩ := ih (bv + step) m' hm'
      subst hmeq
      refine ⟨?_, ?_, ?_⟩
      · intro j hj
        cases j with
        | zero => exact List.isEmpty_iff.1 h0
        | succ i =>
          rw [candsAt_shift]
          exact ihmin i (Nat.lt_of_succ_lt_succ hj)
      · rw [candsAt_shift]
        exact ihne
      · rw [get_candidates]
        rw [if_pos (by rw [candsAt_zero] at h0; simp [isEmpty_map, h0]), iheq,
          candsAt_shift]
        have : bv + step + ((m' : ℚ) + 1) * step = bv + (((Nat.succ m' : Nat) : ℚ) + 1) * step := by
          push_cast
          ring
        rw [this]
    · rw [List.find?_cons_of_pos _ (by simp [h0])] at h
      have hm0 : m = 0 := by
        simpa using (Option.some.injEq _ _ ▸ h).symm
      subst hm0
      refine ⟨fun j hj => absurd hj (Nat.not_lt_zero j), ?_, ?_⟩
      · exact (List.isEmpty_eq_false).1 (Bool.eq_false_iff.2 h0)
      · rw [get_candidates]
        rw [if_neg (by rw [candsAt_zero] at h0; simpa [isEmpty_map] using h0)]
        rw [candsAt_zero]
        have : bv + (((0 : Nat) : ℚ) + 1) * step = bv + step := by
          push_cast
          ring
        rw [this]

/-- Claim C6: (first conjunct) whenever some probe within the recursion depth
finds a candidate, `get_candidates` returns at the FIRST such probe: every
earlier probe's candidate set was empty (the recursion advanced
`buffer_value` strictly by `buffer_step` each time), the returned candidates
are exactly the remaining sectors intersecting the disc of the final buffer
value `buffer_value + (m+1)*buffer_step`, and the query terminates with
`some`.  (Second conjunct) when the remaining-sector pool is exhausted, the
growth does not probe at all: for any recursion depth it terminates
immediately, finalizing the seed with the previously selected rows
(the `Depleted` outcome). -/
theorem claim_C6 :
    (∀ {G : Type} (ops : GeoOps G) (seed : SeedRow G) (sectors : List (SRow G))
      (step : ℚ) (fuel : Nat) (bv : ℚ) (m : Nat),
      firstHit ops seed sectors bv step fuel = some m →
      (∀ j, j < m → candsAt ops seed sectors bv step j = [])
      ∧ candsAt ops seed sectors bv step m ≠ []
      ∧ get_candidates ops seed sectors bv step fuel =
          some ((candsAt ops seed sectors bv step m).map
            (fun s => { s with seed_id := some seed.seed_id }), bv + ((m : ℚ) + 1) * step))
    ∧ (∀ {G : Type} (ops : GeoOps G) (p : Params) (seed : SeedRow G) (bv : ℚ)
      (sel : List (SRow G)) (dacdps : Option (List (AcdpRow G))) (c fuel : Nat)
      (grp : Nat × List (SRow G)) (gs : List (Nat × List (SRow G))),
      dissolveGroups sel = grp :: gs →
      get_sectors_by_seed ops p seed [] bv (some sel) dacdps c (fuel + 1) =
        finalizeSeed ops seed bv (sumDom grp.2) (some sel) [] c) := by
  constructor
  · intro G ops seed sectors step fuel bv m h
    exact get_candidates_firstHit ops seed sectors step fuel bv m h
  · intro G ops p seed bv sel dacdps c fuel grp gs h
    simp [get_sectors_by_seed, h]

/-- Witness for claim C6: on the one-sector scenario the first probe already
hits (firstHit = 0) and the query returns the tagged sector at buffer value
5; and a growth invoked on an empty pool finalizes immediately. -/
theorem claim_C6_witness :
    get_candidates cOpsA seedA [secX] 0 5 3 =
      some ((candsAt cOpsA seedA [secX] 0 5 0).map
        (fun s => { s with seed_id := some seedA.seed_id }), 0 + (((0 : Nat) : ℚ) + 1) * 5)
    ∧ get_sectors_by_seed cOpsA pDefault seedA [] 3 (some [secXs]) none 0 5 =
        finalizeSeed cOpsA seedA 3 (sumDom [secXs]) (some [secXs]) [] 0 := by
  constructor
  · refine (claim_C6.1 cOpsA seedA [secX] 5 3 0 0 ?_).2.2
    norm_num [firstHit, show List.range 3 = [0, 1, 2] from rfl, candsAt, cOpsA, seedA, secX]
  · exact claim_C6.2 cOpsA pDefault seedA 3 [secXs] none 0 4 (7, [secXs]) []
      (by decide)

/-! ### Permutation bookkeeping for sector moves -/

lemma selCodes_map_of {G : Type} (f : SRow G → SRow G)
    (hf : ∀ r, (f r).cd_setor = r.cd_setor) :
    ∀ l : List (SRow G), selCodes (l.map f) = selCodes l := by
  intro l
  induction l with
  | nil => rfl
  | cons r rest ih =>
    simp only [selCodes, List.map_cons] at ih ⊢
    rw [hf r, ih]

lemma selCodes_append {G : Type} (l1 l2 : List (SRow G)) :
    selCodes (l1 ++ l2) = selCodes l1 ++ selCodes l2 := by
  simp [selCodes]

lemma selCodes_filter {G : Type} (q : String → Bool) (l : List (SRow G)) :
    selCodes (l.filter (fun r => q r.cd_setor)) = (selCodes l).filter q := by
  induction l with
  | nil => rfl
  | cons r rest ih =>
    by_cases h : q r.cd_setor
    · simp only [selCodes, List.filter_cons, h, if_true, List.map_cons] at ih ⊢
      rw [ih]
    · simp only [selCodes, List.filter_cons, h, if_false, Bool.false_eq_true, List.map_cons] at ih ⊢
      rw [ih]

/-- Removing from a list (with no duplicate entries) the entries of a sublist
and putting them in front is a permutation. -/
lemma codes_compl_perm : ∀ {cs ls : List String}, List.Sublist cs ls → ls.Nodup →
    List.Perm (cs ++ ls.filter (fun c => !cs.contains c)) ls := by
  intro cs ls hsub
  induction hsub with
  | slnil => intro _; simp
  | cons a hsub ih =>
    rename_i cs' ls'
    intro hnd
    rw [List.nodup_cons] at hnd
    obtain ⟨ha, hnd'⟩ := hnd
    have hacs : ¬ a ∈ cs' := fun hm => ha (hsub.subset hm)
    rw [List.filter_cons, if_pos (by simp [hacs])]
    refine List.Perm.trans List.perm_middle ?_
    exact List.Perm.cons a (ih hnd')
  | cons₂ a hsub ih =>
    rename_i cs' ls'
    intro hnd
    rw [List.nodup_cons] at hnd
    obtain ⟨ha, hnd'⟩ := hnd
    rw [List.filter_cons, if_neg (by simp)]
    have hfe : ls'.filter (fun c => !(a :: cs').contains c) =
        ls'.filter (fun c => !cs'.contains c) := by
      apply List.filter_congr
      intro c hc
      have hca : c ≠ a := fun he => ha (he ▸ hc)
      have hcc : ((a :: cs').contains c) = (cs'.contains c) := by
        simp [List.mem_cons, hca]
      rw [hcc]
    rw [List.cons_append, hfe]
    exact List.Perm.cons a (ih hnd')

/-- The `~isin` removal of `__move_selected_sectors`, reformulated on sector
codes. -/
lemma move_filter_eq {G : Type} (sub sectors : List (SRow G)) :
    sectors.filter (fun m => ¬ sub.any (fun c => c.cd_setor == m.cd_setor)) =
    sectors.filter (fun m => !(selCodes sub).contains m.cd_setor) := by
  apply List.filter_congr
  intro m _
  by_cases h : m.cd_setor ∈ selCodes sub
  · have hany : sub.any (fun c => c.cd_setor == m.cd_setor) = true := by
      rcases List.mem_map.1 h with ⟨c, hc, hcc⟩
      exact List.any_eq_true.2 ⟨c, hc, by simp [hcc]⟩
    simp [hany, h]
  · have hany : sub.any (fun c => c.cd_setor == m.cd_setor) = false := by
      rw [List.any_eq_false]
      intro c hc
      simp only [beq_iff_eq]
      intro hcc
      exact h (hcc ▸ List.mem_map_of_mem (fun r => r.cd_setor) hc)
    simp [hany, h]

/-- Moving rows whose codes form a sublist of the pool's codes preserves the
code multiset: the moved codes plus the filtered pool are a permutation of
the pool. -/
lemma selCodes_filter_contains {G : Type} (cs : List String) (l : List (SRow G)) :
    selCodes (l.filter (fun r => !cs.contains r.cd_setor)) =
      (selCodes l).filter (fun c => !cs.contains c) :=
  selCodes_filter (fun c => !cs.contains c) l

lemma move_perm {G : Type} (sub sectors : List (SRow G))
    (hcodes : List.Sublist (selCodes sub) (selCodes sectors))
    (hnd : (selCodes sectors).Nodup) :
    List.Perm
      (selCodes sub ++
        selCodes (sectors.filter (fun m => ¬ sub.any (fun c => c.cd_setor == m.cd_setor))))
      (selCodes sectors) := by
  rw [move_filter_eq, selCodes_filter_contains]
  exact codes_compl_perm hcodes hnd

/-! ### Shape facts about the growth step -/

/-- Any successful candidate query returns rows of the remaining pool tagged
with the querying seed's id; their codes form a sublist of the pool's codes. -/
lemma get_candidates_shape {G : Type} (ops : GeoOps G) (seed : SeedRow G)
    (sectors : List (SRow G)) (step : ℚ) :
    ∀ (fuel : Nat) (bv : ℚ) (cands : List (SRow G)) (bv2 : ℚ),
      get_candidates ops seed sectors bv step fuel = some (cands, bv2) →
      (∀ r ∈ cands, r.seed_id = some seed.seed_id)
      ∧ List.Sublist (selCodes cands) (selCodes sectors) := by
  intro fuel
  induction fuel with
  | zero =>
    intro bv cands bv2 h
    exact absurd h (by simp [get_candidates])
  | succ n ih =>
    intro bv cands bv2 h
    rw [get_candidates] at h
    by_cases he : ((sectors.filter (fun s =>
        ops.intersects s.geometry (ops.buffer seed.geometry (bv + step)))).map
        (fun s => { s with seed_id := some seed.seed_id })).isEmpty
    · rw [if_pos he] at h
      exact ih (bv + step) cands bv2 h
    · rw [if_neg he] at h
      simp only [Option.some.injEq, Prod.mk.injEq] at h
      obtain ⟨hc, _⟩ := h
      constructor
      · intro r hr
        rw [← hc] at hr
        rcases List.mem_map.1 hr with ⟨s, _, hs⟩
        rw [← hs]
      · rw [← hc,
          selCodes_map_of (fun s => { s with seed_id := some seed.seed_id }) (fun r => rfl)]
        exact List.Sublist.map _ (List.filter_sublist sectors)

/-- A successful `finalizeSeed` decomposes into a successful fresh-id build
plus the recorded buffer seed. -/
lemma finalizeSeed_ok {G : Type} (ops : GeoOps G) (seed : SeedRow G) (bv t : ℚ)
    (sel? : Option (List (SRow G))) (sectors : List (SRow G)) (c : Nat)
    (g : GrowthOk G) (c2 : Nat) :
    finalizeSeed ops seed bv t sel? sectors c = .ok (g, c2) →
    ∃ as sel2, build_acdp_by_sectors ops c sel? none = .ok (as, sel2, c2)
      ∧ g = { acdps := as, selected := sel2, remaining := sectors,
              bufferSeed := { seed_id := seed.seed_id,
                              geometry := ops.buffer seed.geometry bv,
                              buffer_val := bv, num_dom := t } } := by
  intro h
  simp only [finalizeSeed] at h
  cases hb : build_acdp_by_sectors ops c sel? none with
  | error e => rw [hb] at h; exact absurd h (by simp)
  | ok trip =>
    obtain ⟨as, sel2, cb⟩ := trip
    rw [hb] at h
    simp only [Except.ok.injEq, Prod.mk.injEq] at h
    obtain ⟨hg, hc⟩ := h
    refine ⟨as, sel2, ?_, hg.symm⟩
    rw [← hc]

/-- Facts about a successful finalization over a non-empty uniformly tagged
selected list whose household sum is below the upper limit. -/
lemma growth_finalize_concl {G : Type} (ops : GeoOps G) (p : Params) (seed : SeedRow G)
    (bv2 t2 : ℚ) (sel1 rem : List (SRow G)) (c : Nat) (g : GrowthOk G) (c2 : Nat)
    (hne1 : sel1 ≠ [])
    (htags1 : ∀ r ∈ sel1, r.seed_id = some seed.seed_id)
    (hlt1 : sumDom sel1 < p.upper_limit)
    (h : finalizeSeed ops seed bv2 t2 (some sel1) rem c = .ok (g, c2)) :
    c2 = c + 1
    ∧ (∃ a, g.acdps = [a] ∧ a.seed_id = seed.seed_id ∧ a.acdp_id = c + 1
        ∧ a.num_dom < p.upper_limit)
    ∧ (∀ r ∈ g.selected, r.seed_id = some seed.seed_id ∧ r.acdp_id = some (c + 1))
    ∧ selCodes g.selected = selCodes sel1
    ∧ g.remaining = rem := by
  obtain ⟨as, sel2, hb, hgeq⟩ := finalizeSeed_ok ops seed bv2 t2 (some sel1) rem c g c2 h
  rw [build_uniform_none ops c sel1 seed.seed_id hne1 htags1] at hb
  simp only [Except.ok.injEq, Prod.mk.injEq] at hb
  obtain ⟨has, hsel2, hc2⟩ := hb
  subst hgeq
  refine ⟨hc2.symm, ⟨_, has.symm, rfl, rfl, hlt1⟩, ?_, ?_, rfl⟩
  · intro r hr
    simp only at hr
    rw [← hsel2] at hr
    rcases List.mem_map.1 hr with ⟨x, hx, hxx⟩
    rw [← hxx]
    exact ⟨htags1 x hx, rfl⟩
  · simp only
    rw [← hsel2]
    exact selCodes_map_of (fun r => { r with acdp_id := some (c + 1) }) (fun r => rfl) sel1

/-- The part of one growth iteration after a successful candidate query:
filtering, moving and then finalizing or recursing establishes the growth
conclusions, given the candidate tags, the code sublist property and the
selected-rows invariant. -/
lemma growth_after_ok {G : Type} (ops : GeoOps G) (p : Params) (seed : SeedRow G) (n : Nat)
    (sectors : List (SRow G)) (bv2 : ℚ) (sel? : Option (List (SRow G))) (d? : Option G)
    (t0 : ℚ) (cands : List (SRow G)) (dacdps : Option (List (AcdpRow G))) (c : Nat)
    (g : GrowthOk G) (c2 : Nat)
    (hIH : ∀ (sectors2 : List (SRow G)) (bv3 : ℚ) (sel2? : Option (List (SRow G)))
      (g2 : GrowthOk G) (c3 : Nat),
      SelInv seed p.upper_limit sel2? → (selCodes sectors2).Nodup →
      get_sectors_by_seed ops p seed sectors2 bv3 sel2? dacdps c n = .ok (g2, c3) →
      GrowthConcl p seed c sel2? sectors2 g2 c3)
    (hctags : ∀ r ∈ cands, r.seed_id = some seed.seed_id)
    (hcsub : List.Sublist (selCodes cands) (selCodes sectors))
    (ht0 : t0 = sumDom (optList sel?))
    (hinv : SelInv seed p.upper_limit sel?)
    (hnd : (selCodes sectors).Nodup)
    (h : (let fc := filterCandidates ops p.upper_limit d? t0 cands
          let ms : Option (List (SRow G)) × List (SRow G) :=
            if fc.2.1.isEmpty then (sel?, sectors)
            else
              let mv := move_selected_sectors sel? fc.2.1 sectors
              (some mv.1, mv.2)
          if ms.2.isEmpty || fc.2.2 then finalizeSeed ops seed bv2 fc.1 ms.1 ms.2 c
          else get_sectors_by_seed ops p seed ms.2 bv2 ms.1 dacdps c n) = .ok (g, c2)) :
    GrowthConcl p seed c sel? sectors g c2 := by
  have htags0 : ∀ r ∈ optList sel?, r.seed_id = some seed.seed_id := by
    cases sel? with
    | none => intro r hr; exact absurd hr (List.not_mem_nil r)
    | some sel => exact hinv.2.1
  rcases hfc : filterCandidates ops p.upper_limit d? t0 cands with ⟨t2, conf, e2⟩
  have hspec := filterCandidates_spec ops p.upper_limit d? cands t0
  rw [hfc] at hspec
  simp only at hspec
  obtain ⟨hsum, hsubl, hlt, hzero⟩ := hspec
  simp only [hfc] at h
  by_cases hce : conf.isEmpty = true
  · have hconf : conf = [] := List.isEmpty_iff.1 hce
    rw [if_pos hce] at h
    simp only at h
    by_cases hend : (sectors.isEmpty || e2) = true
    · rw [if_pos hend] at h
      cases sel? with
      | none =>
        exfalso
        obtain ⟨as, sel2, hb, _⟩ := finalizeSeed_ok ops seed bv2 t2 none sectors c g c2 h
        simp [build_acdp_by_sectors] at hb
      | some sel =>
        obtain ⟨hne0, htags0s, hsum0⟩ := hinv
        obtain ⟨hc2, hacdp, htags, hcodes, hrem⟩ :=
          growth_finalize_concl ops p seed bv2 t2 sel sectors c g c2 hne0 htags0s hsum0 h
        refine ⟨hc2, hacdp, htags, ?_, ?_⟩
        · rw [hcodes, hrem]
          exact List.Perm.refl _
        · rw [hrem]
    · rw [if_neg hend] at h
      exact hIH sectors bv2 sel? g c2 hinv hnd h
  · have hconfne : conf ≠ [] := by
      intro he
      rw [he] at hce
      exact hce rfl
    rw [if_neg hce] at h
    simp only at h
    have hmv1 : (move_selected_sectors sel? conf sectors).1 = optList sel? ++ conf := by
      cases sel? <;> simp [move_selected_sectors, optList]
    have hmv2 : (move_selected_sectors sel? conf sectors).2 =
        sectors.filter (fun m => ¬ conf.any (fun cde => cde.cd_setor == m.cd_setor)) := rfl
    rw [hmv1, hmv2] at h
    have hconfsub : List.Sublist (selCodes conf) (selCodes sectors) :=
      List.Sublist.trans (List.Sublist.map _ hsubl) hcsub
    have hperm := move_perm conf sectors hconfsub hnd
    have hFcodes : selCodes (sectors.filter
        (fun m => ¬ conf.any (fun cde => cde.cd_setor == m.cd_setor))) =
        (selCodes sectors).filter (fun cde => !(selCodes conf).contains cde) := by
      rw [move_filter_eq, selCodes_filter_contains]
    have hFsub : List.Sublist (selCodes (sectors.filter
        (fun m => ¬ conf.any (fun cde => cde.cd_setor == m.cd_setor)))) (selCodes sectors) := by
      rw [hFcodes]
      exact List.filter_sublist _
    have hFnd : (selCodes (sectors.filter
        (fun m => ¬ conf.any (fun cde => cde.cd_setor == m.cd_setor)))).Nodup :=
      List.Nodup.sublist hFsub hnd
    have htags1 : ∀ r ∈ optList sel? ++ conf, r.seed_id = some seed.seed_id := by
      intro r hr
      rcases List.mem_append.1 hr with hr | hr
      · exact htags0 r hr
      · exact hctags r (hsubl.subset hr)
    have hne1 : optList sel? ++ conf ≠ [] := by
      intro he
      exact hconfne (List.append_eq_nil.1 he).2
    have hsum1 : sumDom (optList sel? ++ conf) = t2 := by
      rw [sumDom_append, ← ht0]
      exact hsum.symm
    have hlt1 : sumDom (optList sel? ++ conf) < p.upper_limit := by
      rw [hsum1]
      exact hlt hconfne
    by_cases hend : ((sectors.filter
        (fun m => ¬ conf.any (fun cde => cde.cd_setor == m.cd_setor))).isEmpty || e2) = true
    · rw [if_pos hend] at h
      obtain ⟨hc2, hacdp, htags, hcodes, hrem⟩ :=
        growth_finalize_concl ops p seed bv2 t2 (optList sel? ++ conf)
          (sectors.filter (fun m => ¬ conf.any (fun cde => cde.cd_setor == m.cd_setor)))
          c g c2 hne1 htags1 hlt1 h
      refine ⟨hc2, hacdp, htags, ?_, ?_⟩
      · rw [hcodes, hrem, selCodes_append, List.append_assoc]
        exact List.Perm.append_left _ hperm
      · rw [hrem]
        exact hFsub
    · rw [if_neg hend] at h
      obtain ⟨hc2, hacdp, htags, hpermIH, hsubIH⟩ :=
        hIH (sectors.filter (fun m => ¬ conf.any (fun cde => cde.cd_setor == m.cd_setor)))
          bv2 (some (optList sel? ++ conf)) g c2 ⟨hne1, htags1, hlt1⟩ hFnd h
      refine ⟨hc2, hacdp, htags, ?_, List.Sublist.trans hsubIH hFsub⟩
      refine List.Perm.trans hpermIH ?_
      rw [show optList (some (optList sel? ++ conf)) = optList sel? ++ conf from rfl,
        selCodes_append, List.append_assoc]
      exact List.Perm.append_left _ hperm

/-- Master lemma about `__get_sectors_by_seed`: any successful growth,
started from a selected state satisfying the invariant over a pool with
distinct sector codes, satisfies `GrowthConcl`. -/
lemma growth_master {G : Type} (ops : GeoOps G) (p : Params) (seed : SeedRow G) :
    ∀ (fuel : Nat) (sectors : List (SRow G)) (bv : ℚ) (sel? : Option (List (SRow G)))
      (dacdps : Option (List (AcdpRow G))) (c : Nat) (g : GrowthOk G) (c2 : Nat),
      SelInv seed p.upper_limit sel? →
      (selCodes sectors).Nodup →
      get_sectors_by_seed ops p seed sectors bv sel? dacdps c fuel = .ok (g, c2) →
      GrowthConcl p seed c sel? sectors g c2 := by
  intro fuel
  induction fuel with
  | zero =>
    intro sectors bv sel? dacdps c g c2 _ _ h
    exact absurd h (by simp [get_sectors_by_seed])
  | succ n ih =>
    intro sectors bv sel? dacdps c g c2 hinv hnd h
    simp only [get_sectors_by_seed] at h
    cases sel? with
    | none =>
      cases hgc : get_candidates ops seed sectors bv p.buffer_step n with
      | none =>
        rw [hgc] at h
        exact absurd h (by simp)
      | some pr =>
        obtain ⟨cands, bv2⟩ := pr
        simp only [hgc] at h
        obtain ⟨hctags, hcsub⟩ :=
          get_candidates_shape ops seed sectors p.buffer_step n bv cands bv2 hgc
        exact growth_after_ok ops p seed n sectors bv2 none none 0 cands dacdps c g c2
          (fun s2 b3 s? g2 c3 hi hn hh => ih s2 b3 s? dacdps c g2 c3 hi hn hh)
          hctags hcsub rfl trivial hnd h
    | some sel =>
      obtain ⟨hne0, htags0s, hsum0⟩ := hinv
      simp only [] at h
      rw [dissolveGroups_uniform seed.seed_id sel hne0 htags0s] at h
      simp only [] at h
      by_cases hgate : sectors.any (fun s => ops.intersects s.geometry
          (ops.buffer (ops.unionList (sel.map (fun r => r.geometry)))
            p.buffer_to_dissolve)) = true
      · rw [if_pos hgate] at h
        cases hgc : get_candidates ops seed sectors bv p.buffer_step n with
        | none =>
          rw [hgc] at h
          exact absurd h (by simp)
        | some pr =>
          obtain ⟨cands, bv2⟩ := pr
          simp only [hgc] at h
          obtain ⟨hctags, hcsub⟩ :=
            get_candidates_shape ops seed sectors p.buffer_step n bv cands bv2 hgc
          exact growth_after_ok ops p seed n sectors bv2 (some sel)
            (some (ops.buffer (ops.unionList (sel.map (fun r => r.geometry)))
              p.buffer_to_dissolve))
            (sumDom sel) cands dacdps c g c2
            (fun s2 b3 s? g2 c3 hi hn hh => ih s2 b3 s? dacdps c g2 c3 hi hn hh)
            hctags hcsub rfl ⟨hne0, htags0s, hsum0⟩ hnd h
      · rw [if_neg hgate] at h
        obtain ⟨hc2, hacdp, htags, hcodes, hrem⟩ :=
          growth_finalize_concl ops p seed bv (sumDom sel) sel sectors c g c2
            hne0 htags0s hsum0 h
        refine ⟨hc2, hacdp, htags, ?_, ?_⟩
        · rw [hcodes, hrem]
          exact List.Perm.refl _
        · rw [hrem]

/-- Claim C1 amended: every ACDP emitted by `__get_sectors_by_seed` itself
(the main pass, which the District Solver invokes with
`selected_sectors=None`) has a household total strictly below `upper_limit`;
the counterexample above shows this ceiling does not survive the Hole Repair
rebuild.  Sector codes are assumed distinct, per the data model. -/
theorem claim_C1_amended {G : Type} (ops : GeoOps G) (p : Params) (seed : SeedRow G)
    (sectors : List (SRow G)) (bv : ℚ) (dacdps : Option (List (AcdpRow G)))
    (c fuel : Nat) (g : GrowthOk G) (c2 : Nat)
    (hnd : (selCodes sectors).Nodup)
    (hok : get_sectors_by_seed ops p seed sectors bv none dacdps c fuel = .ok (g, c2)) :
    ∀ a ∈ g.acdps, a.num_dom < p.upper_limit := by
  obtain ⟨-, ⟨a0, hga, -, -, hlt⟩, -, -, -⟩ :=
    growth_master ops p seed fuel sectors bv none dacdps c g c2 trivial hnd hok
  intro a ha
  rw [hga] at ha
  rcases List.mem_singleton.1 ha with rfl
  exact hlt

/-- Witness for the amended claim C1: the one-sector growth of seed 7 under
`cOpsA` emits the ACDP `acdpX` with 100 households, below the default
upper limit of 5500. -/
theorem claim_C1_witness : acdpX.num_dom < pDefault.upper_limit := by
  refine claim_C1_amended cOpsA pDefault seedA [secX] 0 none 0 10 gX 1
    (by decide) ?_ acdpX (by decide)
  norm_num [get_sectors_by_seed, get_candidates, filterCandidates, move_selected_sectors,
    finalizeSeed, build_acdp_by_sectors, dissolveGroups, dissolveKeys, groupRows,
    firstDedupAux, sumDom, selCodes, optList, intersectsO, round2, cOpsA, pDefault,
    SeedProcess.init, seedA, secX, secXs, gX, acdpX, icx]

/-! ### Basic facts about any successful growth -/

/-- Any successful growth advances the process counter by exactly one and
emits at least one ACDP (no hypotheses on the inputs). -/
lemma growth_ok_basic {G : Type} (ops : GeoOps G) (p : Params) (seed : SeedRow G) :
    ∀ (fuel : Nat) (sectors : List (SRow G)) (bv : ℚ) (sel? : Option (List (SRow G)))
      (dacdps : Option (List (AcdpRow G))) (c : Nat) (g : GrowthOk G) (c2 : Nat),
      get_sectors_by_seed ops p seed sectors bv sel? dacdps c fuel = .ok (g, c2) →
      c2 = c + 1 ∧ g.acdps ≠ [] := by
  intro fuel
  induction fuel with
  | zero =>
    intro sectors bv sel? dacdps c g c2 h
    exact absurd h (by simp [get_sectors_by_seed])
  | succ n ih =>
    intro sectors bv sel? dacdps c g c2 h
    simp only [get_sectors_by_seed] at h
    have hfin : ∀ (bw t : ℚ) (s? : Option (List (SRow G))) (rem : List (SRow G)),
        finalizeSeed ops seed bw t s? rem c = .ok (g, c2) → c2 = c + 1 ∧ g.acdps ≠ [] := by
      intro bw t s? rem hf
      obtain ⟨as, sel2, hb, hgeq⟩ := finalizeSeed_ok ops seed bw t s? rem c g c2 hf
      obtain ⟨hne, hc2, -⟩ := build_ok_shape ops c s? none as sel2 c2 hb
      subst hgeq
      exact ⟨hc2, hne⟩
    cases sel? with
    | none =>
      cases hgc : get_candidates ops seed sectors bv p.buffer_step n with
      | none =>
        rw [hgc] at h
        exact absurd h (by simp)
      | some pr =>
        obtain ⟨cands, bv2⟩ := pr
        simp only [hgc] at h
        split at h <;> split at h <;>
          first
          | exact hfin _ _ _ _ h
          | exact ih _ _ _ _ _ _ _ h
    | some sel =>
      simp only [] at h
      cases hgr : dissolveGroups sel with
      | nil =>
        rw [hgr] at h
        exact absurd h (by simp)
      | cons g0 gs =>
        simp only [hgr] at h
        split at h
        · cases hgc : get_candidates ops seed sectors bv p.buffer_step n with
          | none =>
            rw [hgc] at h
            exact absurd h (by simp)
          | some pr =>
            obtain ⟨cands, bv2⟩ := pr
            simp only [hgc] at h
            split at h <;> split at h <;>
              first
              | exact hfin _ _ _ _ h
              | exact ih _ _ _ _ _ _ _ h
        · exact hfin _ _ _ _ h

/-! ### Parameter congruence: no code path reads `lower_limit` -/

lemma growth_congr {G : Type} (ops : GeoOps G) (p q : Params) (seed : SeedRow G)
    (h1 : p.buffer_step = q.buffer_step) (h2 : p.upper_limit = q.upper_limit)
    (h3 : p.buffer_to_dissolve = q.buffer_to_dissolve) :
    ∀ (fuel : Nat) (sectors : List (SRow G)) (bv : ℚ) (sel? : Option (List (SRow G)))
      (dacdps : Option (List (AcdpRow G))) (c : Nat),
      get_sectors_by_seed ops p seed sectors bv sel? dacdps c fuel =
        get_sectors_by_seed ops q seed sectors bv sel? dacdps c fuel := by
  intro fuel
  induction fuel with
  | zero => intro sectors bv sel? dacdps c; rfl
  | succ n ih =>
    intro sectors bv sel? dacdps c
    simp only [get_sectors_by_seed, h1, h2, h3, ih]

lemma seedLoop_congr {G : Type} (ops : GeoOps G) (p q : Params) (fuel : Nat)
    (h1 : p.buffer_step = q.buffer_step) (h2 : p.upper_limit = q.upper_limit)
    (h3 : p.buffer_to_dissolve = q.buffer_to_dissolve) :
    ∀ (seeds : List (SeedRow G)) (st : LoopState G),
      seedLoop ops p fuel seeds st = seedLoop ops q fuel seeds st := by
  intro seeds
  induction seeds with
  | nil => intro st; rfl
  | cons a_seed rest ih =>
    intro st
    simp only [seedLoop, growth_congr ops p q a_seed h1 h2 h3, ih]

lemma grouping_congr {G : Type} (ops : GeoOps G) (p q : Params)
    (h1 : p.buffer_step = q.buffer_step) (h2 : p.upper_limit = q.upper_limit)
    (h3 : p.buffer_to_dissolve = q.buffer_to_dissolve)
    (seeds : List (SeedRow G)) (sectors : List (SRow G)) (counter fuel : Nat) :
    district_sectors_grouping ops p seeds sectors counter fuel =
      district_sectors_grouping ops q seeds sectors counter fuel := by
  simp only [district_sectors_grouping, seedLoop_congr ops p q fuel h1 h2 h3]

/-- Claim C7: (first conjunct) the `lower_limit` configuration value is never
read after `__init__` — the outputs of `district_sectors_grouping` are
identical whatever `lower_limit` holds; (second conjunct) a growth that
terminates by depletion (empty remaining pool) with its household total below
`lower_limit` still emits its ACDP — the code commits any successfully built
selected set. -/
theorem claim_C7 :
    (∀ {G : Type} (ops : GeoOps G) (p : Params) (l : ℚ) (seeds : List (SeedRow G))
      (sectors : List (SRow G)) (counter fuel : Nat),
      district_sectors_grouping ops { p with lower_limit := l } seeds sectors counter fuel =
        district_sectors_grouping ops p seeds sectors counter fuel)
    ∧ (∀ {G : Type} (ops : GeoOps G) (p : Params) (seed : SeedRow G)
      (sectors : List (SRow G)) (dacdps : Option (List (AcdpRow G))) (c fuel : Nat)
      (g : GrowthOk G) (c2 : Nat),
      get_sectors_by_seed ops p seed sectors 0 none dacdps c fuel = .ok (g, c2) →
      g.remaining = [] → g.bufferSeed.num_dom < p.lower_limit →
      g.acdps ≠ []) := by
  constructor
  · intro G ops p l seeds sectors counter fuel
    exact grouping_congr ops { p with lower_limit := l } p rfl rfl rfl seeds sectors counter fuel
  · intro G ops p seed sectors dacdps c fuel g c2 hok _ _
    exact (growth_ok_basic ops p seed fuel sectors 0 none dacdps c g c2 hok).2

/-- Witness for claim C7: the depletion scenario (`cOpsE`): both 30-household
sectors are absorbed, the pool empties, the total 60 is below the default
lower limit 500, and the ACDP list of the result `gE` is nonetheless
non-empty. -/
theorem claim_C7_witness : gE.acdps ≠ [] := by
  refine claim_C7.2 cOpsE pDefault seedA [secP, secQ] none 0 20 gE 1 ?_ (by decide) ?_
  · norm_num [get_sectors_by_seed, get_candidates, filterCandidates, move_selected_sectors,
      finalizeSeed, build_acdp_by_sectors, dissolveGroups, dissolveKeys, groupRows,
      firstDedupAux, sumDom, selCodes, optList, intersectsO, round2, cOpsE, pDefault,
      SeedProcess.init, seedA, secP, secQ, gE, icpq, nepq, Ne.symm nepq]
  · norm_num [gE, pDefault, SeedProcess.init]

lemma icxy : (",".intercalate ["x", "y"]) = "x,y" := by decide

/-- Claim C8: building the ACDP from a non-empty selected set (all rows
tagged with the same seed key, as at every call site) dissolves the member
geometries into their union and sets the household count to the member sum,
`seed_id` and `cd_dist` to the first member's values, `n_sectors` to the
member count, `area_m2` to the rounded area of the dissolved geometry, and
`cd_sectors` to the member codes joined with a comma. -/
theorem claim_C8 {G : Type} (ops : GeoOps G) (c : Nat) (id? : Option Nat)
    (s0 : SRow G) (rest : List (SRow G)) (k : Nat)
    (_hk : s0.seed_id = some k) (htags : ∀ r ∈ s0 :: rest, r.seed_id = some k) :
    ∃ a sel2 c2,
      build_acdp_by_sectors ops c (some (s0 :: rest)) id? = .ok ([a], sel2, c2)
      ∧ a.geometry = ops.unionList ((s0 :: rest).map (fun r => r.geometry))
      ∧ a.num_dom = sumDom (s0 :: rest)
      ∧ a.seed_id = k
      ∧ a.cd_dist = s0.cd_dist
      ∧ a.n_sectors = (s0 :: rest).length
      ∧ a.area_m2 = round2 (ops.area (ops.unionList ((s0 :: rest).map (fun r => r.geometry))))
      ∧ a.cd_sectors = String.intercalate "," ((s0 :: rest).map (fun r => r.cd_setor)) := by
  cases id? with
  | none =>
    exact ⟨_, _, _,
      build_uniform_none ops c (s0 :: rest) k (by simp) htags,
      rfl, rfl, rfl, rfl, rfl, rfl, rfl⟩
  | some i =>
    exact ⟨_, _, _,
      build_uniform_some ops c (s0 :: rest) k i (by simp) htags,
      rfl, rfl, rfl, rfl, rfl, rfl, rfl⟩

/-- Witness for claim C8: the two-row build under the trivial geometry table
produces an ACDP whose household count is the member sum. -/
theorem claim_C8_witness : aT2.num_dom = sumDom [rT, rU] := by
  obtain ⟨a, sel2, c2, heq, -, hnd, -⟩ :=
    claim_C8 cOpsTriv 0 none rT [rU] 1 rfl (by decide)
  have hrun : build_acdp_by_sectors cOpsTriv 0 (some [rT, rU]) none =
      .ok ([aT2], [rT1, rU1], 1) := by
    norm_num [build_acdp_by_sectors, dissolveGroups, dissolveKeys, groupRows,
      firstDedupAux, sumDom, round2, cOpsTriv, rT, rU, rT1, rU1, aT2, icxy]
  rw [heq] at hrun
  simp only [Except.ok.injEq, Prod.mk.injEq, List.cons.injEq, and_true] at hrun
  exact hrun.1 ▸ hnd

/-! ### The acdp_id counter discipline -/

lemma rebuildLoop_counter {G : Type} (ops : GeoOps G) (aux : List (SRow G)) :
    ∀ (changed : List Nat) (acdps : List (AcdpRow G)) (sbs : List (SRow G)) (c : Nat)
      (a2 : List (AcdpRow G)) (s2 : List (SRow G)) (c2 : Nat),
      rebuildLoop ops aux changed acdps sbs c = .ok (a2, s2, c2) → c2 = c := by
  intro changed
  induction changed with
  | nil =>
    intro acdps sbs c a2 s2 c2 h
    simp only [rebuildLoop, Except.ok.injEq, Prod.mk.injEq] at h
    exact h.2.2.symm
  | cons acdpId rest ih =>
    intro acdps sbs c a2 s2 c2 h
    simp only [rebuildLoop] at h
    split at h
    · exact ih _ _ _ _ _ _ h
    · cases hb : build_acdp_by_sectors ops c
        (some ((sbs.filter (fun r => aux.any (fun a => a.seed_id == r.seed_id))).filter
          (fun r => r.acdp_id == some acdpId))) (some acdpId) with
      | error e =>
        rw [hb] at h
        exact absurd h (by simp)
      | ok trip =>
        obtain ⟨newAcdps, sel2, cb⟩ := trip
        rw [hb] at h
        simp only at h
        obtain ⟨-, hcb, -⟩ := build_ok_shape ops c _ (some acdpId) newAcdps sel2 cb hb
        rw [ih _ _ _ _ _ _ h]
        exact hcb

lemma seedLoop_counter_mono {G : Type} (ops : GeoOps G) (p : Params) (fuel : Nat) :
    ∀ (seeds : List (SeedRow G)) (st st2 : LoopState G),
      seedLoop ops p fuel seeds st = .ok st2 → st.counter ≤ st2.counter := by
  intro seeds
  induction seeds with
  | nil =>
    intro st st2 h
    simp only [seedLoop, Except.ok.injEq] at h
    rw [h]
  | cons a_seed rest ih =>
    intro st st2 h
    simp only [seedLoop] at h
    split at h
    · exact ih st st2 h
    · cases hg : get_sectors_by_seed ops p a_seed st.remaining 0 none st.acdps st.counter fuel with
      | error e =>
        rw [hg] at h
        exact absurd h (by simp)
      | ok pr =>
        obtain ⟨g, c2⟩ := pr
        rw [hg] at h
        simp only at h
        have hc2 : c2 = st.counter + 1 :=
          (growth_ok_basic ops p a_seed fuel st.remaining 0 none st.acdps st.counter g c2 hg).1
        split at h
        · simp only [Except.ok.injEq] at h
          rw [← h]
          simp only [hc2]
          exact Nat.le_succ _
        · have := ih _ _ h
          simp only [hc2] at this
          exact Nat.le_trans (Nat.le_succ _) this

lemma grouping_counter_mono {G : Type} (ops : GeoOps G) (p : Params)
    (seeds : List (SeedRow G)) (sectors : List (SRow G)) (counter fuel : Nat)
    (out : DistrictOut G) (c2 : Nat)
    (h : district_sectors_grouping ops p seeds sectors counter fuel = .ok (out, c2)) :
    counter ≤ c2 := by
  simp only [district_sectors_grouping] at h
  cases hsl : seedLoop ops p fuel seeds
      { sbs := none, circ := [], acdps := none, remaining := sectors, counter := counter } with
  | error e =>
    simp only [hsl] at h
    exact absurd h (by simp)
  | ok st =>
    simp only [hsl] at h
    have hmono := seedLoop_counter_mono ops p fuel seeds _ st hsl
    simp only at hmono
    split at h
    · split at h
      · simp only [Except.ok.injEq, Prod.mk.injEq] at h
        rw [← h.2]
        exact hmono
      · exact absurd h (by simp)
    · split at h
      · exact absurd h (by simp)
      · rename_i acdps hacdps
        cases hph : put_sectors_in_holes ops st.remaining acdps with
        | error e =>
          simp only [hph] at h
          exact absurd h (by simp)
        | ok trip =>
          obtain ⟨selAux?, remaining2, changed⟩ := trip
          simp only [hph] at h
          cases hsbs : st.sbs with
          | none =>
            simp only [hsbs] at h
            exact absurd h (by simp)
          | some sbs0 =>
            cases hsa : selAux? with
            | none =>
              simp only [hsbs, hsa] at h
              exact absurd h (by simp)
            | some selAux =>
              simp only [hsbs, hsa] at h
              cases hrb : rebuildLoop ops selAux changed acdps (sbs0 ++ selAux) st.counter with
              | error e =>
                simp only [hrb] at h
                exact absurd h (by simp)
              | ok trip2 =>
                obtain ⟨acdps2, sbs2, c3⟩ := trip2
                simp only [hrb, Except.ok.injEq, Prod.mk.injEq] at h
                rw [← h.2]
                rw [rebuildLoop_counter ops selAux changed acdps (sbs0 ++ selAux) st.counter
                  acdps2 sbs2 c3 hrb]
                exact hmono

/-- Claim C10: the process-global `acdp_id` counter starts at 0; a build with
`acdp_id=None` pre-increments the counter and stamps every resulting ACDP with
the new value (so the first ACDP of a process gets id 1 and each subsequent
new ACDP the previous id plus 1, strictly increasing across districts — the
district grouping never decreases the counter); a rebuild with an explicit
`acdp_id` keeps that id on every resulting ACDP and leaves the counter
untouched. -/
theorem claim_C10 :
    initAcdpId = 0
    ∧ (∀ {G : Type} (ops : GeoOps G) (c : Nat) (sel : List (SRow G))
        (as : List (AcdpRow G)) (s2 : List (SRow G)) (c2 : Nat),
        build_acdp_by_sectors ops c (some sel) none = .ok (as, s2, c2) →
        c2 = c + 1 ∧ ∀ a ∈ as, a.acdp_id = c + 1)
    ∧ (∀ {G : Type} (ops : GeoOps G) (c : Nat) (sel : List (SRow G)) (i : Nat)
        (as : List (AcdpRow G)) (s2 : List (SRow G)) (c2 : Nat),
        build_acdp_by_sectors ops c (some sel) (some i) = .ok (as, s2, c2) →
        c2 = c ∧ ∀ a ∈ as, a.acdp_id = i)
    ∧ (∀ {G : Type} (ops : GeoOps G) (p : Params) (seeds : List (SeedRow G))
        (sectors : List (SRow G)) (counter fuel : Nat) (out : DistrictOut G) (c2 : Nat),
        district_sectors_grouping ops p seeds sectors counter fuel = .ok (out, c2) →
        counter ≤ c2) := by
  refine ⟨rfl, ?_, ?_, ?_⟩
  · intro G ops c sel as s2 c2 h
    obtain ⟨-, hc2, hid⟩ := build_ok_shape ops c (some sel) none as s2 c2 h
    exact ⟨hc2, hid⟩
  · intro G ops c sel i as s2 c2 h
    obtain ⟨-, hc2, hid⟩ := build_ok_shape ops c (some sel) (some i) as s2 c2 h
    exact ⟨hc2, hid⟩
  · intro G ops p seeds sectors counter fuel out c2 h
    exact grouping_counter_mono ops p seeds sectors counter fuel out c2 h

/-- Witness for claim C10: the one-row build from counter `initAcdpId = 0`
stamps the resulting ACDP `aT` with the pre-incremented id 1. -/
theorem claim_C10_witness : aT.acdp_id = initAcdpId + 1 := by
  have hrun : build_acdp_by_sectors cOpsTriv initAcdpId (some [rT]) none =
      .ok ([aT], [{ rT with acdp_id := some 1 }], 1) := by
    norm_num [build_acdp_by_sectors, dissolveGroups, dissolveKeys, groupRows,
      firstDedupAux, sumDom, round2, cOpsTriv, rT, aT, initAcdpId, icx]
  exact (claim_C10.2.1 cOpsTriv initAcdpId [rT] [aT] [{ rT with acdp_id := some 1 }] 1
    hrun).2 aT (List.mem_singleton_self aT)

/-- Claim C4: in the District Solver's seed loop, a seed whose point is
contained in (hence, for any sound geometry kernel, intersects) the geometry
of some already-emitted sector assignment is skipped entirely — the loop
continues with the next seed and an unchanged state, so no ACDP, no sector
assignment and no buffer record is emitted for that seed. -/
theorem claim_C4 {G : Type} (ops : GeoOps G) (p : Params) (fuel : Nat)
    (s : SeedRow G) (rest : List (SeedRow G)) (st : LoopState G) (rows : List (SRow G))
    (hrows : st.sbs = some rows)
    (hlaw : ∀ a b : G, ops.contains a b = true → ops.intersects a b = true)
    (hcov : ∃ r ∈ rows, ops.contains r.geometry s.geometry = true) :
    seedLoop ops p fuel (s :: rest) st = seedLoop ops p fuel rest st := by
  obtain ⟨r, hr, hc⟩ := hcov
  have hskip : (match st.sbs with
      | some rows2 => rows2.any (fun r2 => ops.intersects r2.geometry s.geometry)
      | none => false) = true := by
    rw [hrows]
    exact List.any_eq_true.2 ⟨r, hr, hlaw _ _ hc⟩
  simp only [seedLoop]
  rw [if_pos hskip]

/-- Witness for claim C4: under `cOpsK` the seed point (geometry 0) is
contained in the assigned sector geometry 1, and the loop step is the
identity on the remaining seeds. -/
theorem claim_C4_witness :
    seedLoop cOpsK pDefault 5 [seedK] stK = seedLoop cOpsK pDefault 5 [] stK :=
  claim_C4 cOpsK pDefault 5 seedK [] stK [secX] rfl (fun a b h => h)
    ⟨secX, by decide, by decide⟩

/-! ### The district solver's seed loop invariant -/

lemma seedLoop_inv {G : Type} (ops : GeoOps G) (p : Params) (fuel : Nat)
    (inputCodes : List String) (hndI : inputCodes.Nodup) :
    ∀ (seeds : List (SeedRow G)) (st st2 : LoopState G),
      StInv inputCodes st →
      (seeds.map (·.seed_id)).Nodup →
      (∀ a ∈ optList st.acdps, a.seed_id ∉ seeds.map (·.seed_id)) →
      seedLoop ops p fuel seeds st = .ok st2 →
      StInv inputCodes st2 := by
  intro seeds
  induction seeds with
  | nil =>
    intro st st2 hinv _ _ h
    simp only [seedLoop, Except.ok.injEq] at h
    rw [← h]
    exact hinv
  | cons a_seed rest ih =>
    intro st st2 hinv hseed hfresh h
    have hseedt : (rest.map (·.seed_id)).Nodup := (List.nodup_cons.1 hseed).2
    have hseedh : a_seed.seed_id ∉ rest.map (·.seed_id) := (List.nodup_cons.1 hseed).1
    simp only [seedLoop] at h
    split at h
    · exact ih st st2 hinv hseedt
        (fun a ha hm => hfresh a ha (List.mem_cons_of_mem _ hm)) h
    · obtain ⟨hperm0, htag0, hnds0, hnda0, hbound0⟩ := hinv
      have hndrem : (selCodes st.remaining).Nodup := by
        have := (List.Perm.nodup hperm0.symm hndI)
        exact (List.nodup_append.1 this).2.1
      cases hg : get_sectors_by_seed ops p a_seed st.remaining 0 none st.acdps st.counter fuel with
      | error e =>
        rw [hg] at h
        exact absurd h (by simp)
      | ok pr =>
        obtain ⟨g, c2⟩ := pr
        rw [hg] at h
        simp only at h
        obtain ⟨hc2, ⟨a_new, hga, hasid, haid, -⟩, htagsG, hpermG, -⟩ :=
          growth_master ops p a_seed fuel st.remaining 0 none st.acdps st.counter g c2
            trivial hndrem hg
        have hpermG2 : List.Perm (selCodes g.selected ++ selCodes g.remaining)
            (selCodes st.remaining) := by
          simpa [optList, selCodes] using hpermG
        have hinv2 : StInv inputCodes
            { sbs := some (optList st.sbs ++ g.selected)
              circ := st.circ ++ [g.bufferSeed]
              acdps := some (optList st.acdps ++ g.acdps)
              remaining := g.remaining
              counter := c2 } := by
          refine ⟨?_, ?_, ?_, ?_, ?_⟩
          · simp only [optList, Option.getD]
            rw [selCodes_append, List.append_assoc]
            refine List.Perm.trans (List.Perm.append_left _ hpermG2) ?_
            exact hperm0
          · intro r hr
            simp only [optList, Option.getD] at hr
            rcases List.mem_append.1 hr with hr | hr
            · obtain ⟨a, ha, hp⟩ := htag0 r hr
              exact ⟨a, by simp only [optList, Option.getD]; exact List.mem_append_left _ ha, hp⟩
            · obtain ⟨hsid, hid⟩ := htagsG r hr
              refine ⟨a_new, ?_, ?_, ?_⟩
              · simp only [optList, Option.getD]
                exact List.mem_append_right _ (hga ▸ List.mem_singleton_self a_new)
              · rw [hsid, hasid]
              · rw [hid, haid]
          · simp only [optList, Option.getD, List.map_append, hga]
            rw [List.nodup_append]
            refine ⟨hnds0, by simp, ?_⟩
            intro y hy
            simp only [List.map_cons, List.map_nil, List.mem_singleton, hasid]
            rcases List.mem_map.1 hy with ⟨a, ha, hya⟩
            intro hcon
            rw [hcon] at hya
            exact hfresh a ha (hya ▸ List.mem_cons_self _ _)
          · simp only [optList, Option.getD, List.map_append, hga]
            rw [List.nodup_append]
            refine ⟨hnda0, by simp, ?_⟩
            intro y hy
            simp only [List.map_cons, List.map_nil, List.mem_singleton, haid]
            rcases List.mem_map.1 hy with ⟨a, ha, hya⟩
            intro hcon
            have := hbound0 a ha
            rw [hya, hcon] at this
            exact absurd this (by simp)
          · intro a ha
            simp only [optList, Option.getD] at ha
            rcases List.mem_append.1 ha with ha | ha
            · simp only
              rw [hc2]
              exact Nat.le_trans (hbound0 a ha) (Nat.le_succ _)
            · rw [hga] at ha
              rcases List.mem_singleton.1 ha with rfl
              simp only
              rw [haid, hc2]
          -- end hinv2
        split at h
        · simp only [Except.ok.injEq] at h
          rw [← h]
          exact hinv2
        · refine ih _ st2 hinv2 hseedt ?_ h
          intro a ha hm
          simp only [optList, Option.getD] at ha
          rcases List.mem_append.1 ha with ha | ha
          · exact hfresh a ha (List.mem_cons_of_mem _ hm)
          · rw [hga] at ha
            rcases List.mem_singleton.1 ha with rfl
            rw [hasid] at hm
            exact hseedh hm

/-! ### The hole-repair pass preserves the sector-code multiset -/

lemma move_fst {G : Type} (sel? : Option (List (SRow G))) (cands sectors : List (SRow G)) :
    (move_selected_sectors sel? cands sectors).1 = optList sel? ++ cands := by
  cases sel? <;> rfl

lemma move_snd {G : Type} (sel? : Option (List (SRow G))) (cands sectors : List (SRow G)) :
    (move_selected_sectors sel? cands sectors).2 =
      sectors.filter (fun m => ¬ cands.any (fun c => c.cd_setor == m.cd_setor)) := by
  cases sel? <;> rfl

lemma selCodes_sublist_of_filter {G : Type} (q : SRow G → Bool) (l : List (SRow G)) :
    List.Sublist (selCodes (l.filter q)) (selCodes l) :=
  (List.filter_sublist l).map _

lemma holesLoop_inv {G : Type} (ops : GeoOps G) (acdpsAll : List (AcdpRow G)) :
    ∀ (iter : List (AcdpRow G)) (selected? : Option (List (SRow G)))
      (sectors : List (SRow G)) (changed : List Nat) (ext? : Option G)
      (selF? : Option (List (SRow G))) (sectorsF : List (SRow G)) (changedF : List Nat),
      (∀ a ∈ iter, a ∈ acdpsAll) →
      (∀ r ∈ optList selected?, TagRef acdpsAll r) →
      (selCodes sectors).Nodup →
      holesLoop ops iter selected? sectors changed ext? = .ok (selF?, sectorsF, changedF) →
      List.Perm (selCodes (optList selF?) ++ selCodes sectorsF)
        (selCodes (optList selected?) ++ selCodes sectors) ∧
      (∀ r ∈ optList selF?, TagRef acdpsAll r) := by
  intro iter
  induction iter with
  | nil =>
    intro selected? sectors changed ext? selF? sectorsF changedF _ htag _ h
    simp only [holesLoop, Except.ok.injEq, Prod.mk.injEq] at h
    obtain ⟨h1, h2, -⟩ := h
    rw [← h1, ← h2]
    exact ⟨List.Perm.refl _, htag⟩
  | cons acdp rest ih =>
    intro selected? sectors changed ext? selF? sectorsF changedF hsub htag hnd h
    have hsub2 : ∀ a ∈ rest, a ∈ acdpsAll := fun a ha => hsub a (List.mem_cons_of_mem _ ha)
    simp only [holesLoop] at h
    cases hext : (if ops.isPolygon acdp.geometry
        then some (ops.exteriorRing acdp.geometry) else ext?) with
    | none =>
      rw [hext] at h
      simp at h
    | some ring =>
      simp only [hext] at h
      split at h
      · exact ih selected? sectors changed (some ring) selF? sectorsF changedF hsub2 htag hnd h
      · split at h
        · exact ih selected? sectors changed (some ring) selF? sectorsF changedF hsub2 htag hnd h
        · -- adoption step: candidate sectors are retagged and moved
          have hrec :=
            ih _ _ _ (some ring) selF? sectorsF changedF hsub2 ?htagN ?hndN h
          case htagN =>
            intro r hr
            rw [move_fst] at hr
            rcases List.mem_append.1 hr with hr | hr
            · exact htag r hr
            · rcases List.mem_map.1 hr with ⟨s, hs, hrs⟩
              exact ⟨acdp, hsub acdp (List.mem_cons_self _ _), by rw [← hrs], by rw [← hrs]⟩
          case hndN =>
            rw [move_snd]
            exact List.Nodup.sublist (selCodes_sublist_of_filter _ sectors) hnd
          obtain ⟨hperm, htagF⟩ := hrec
          refine ⟨hperm.trans ?_, htagF⟩
          rw [move_fst, move_snd]
          simp only [optList, Option.getD]
          rw [selCodes_append, List.append_assoc]
          refine List.Perm.append_left _ ?_
          have hcand : selCodes
              (((sectors.filter (fun s =>
                  ops.coveredBy s.geometry (ops.polygonOfRing ring))).map
                (fun s => { s with seed_id := some acdp.seed_id, acdp_id := some acdp.acdp_id }))) =
              selCodes (sectors.filter (fun s =>
                ops.coveredBy s.geometry (ops.polygonOfRing ring))) :=
            selCodes_map_of
              (fun s => { s with seed_id := some acdp.seed_id, acdp_id := some acdp.acdp_id })
              (fun r => rfl) _
          refine move_perm _ sectors ?_ hnd
          rw [hcand]
          exact selCodes_sublist_of_filter _ sectors

/-! ### The rebuild pass preserves the assigned sector-code multiset -/

lemma rebuild_sel_facts {G : Type} (aux : List (SRow G)) (acdps : List (AcdpRow G))
    (sbs : List (SRow G)) (acdpId : Nat)
    (htag : ∀ r ∈ sbs, TagRef acdps r)
    (hnds : (acdps.map (·.seed_id)).Nodup)
    (hnda : (acdps.map (·.acdp_id)).Nodup)
    (hne : (sbs.filter (fun r => aux.any (fun a => a.seed_id == r.seed_id))).filter
        (fun r => r.acdp_id == some acdpId) ≠ []) :
    ∃ a0 ∈ acdps, a0.acdp_id = acdpId ∧
      (∀ x ∈ (sbs.filter (fun r => aux.any (fun a => a.seed_id == r.seed_id))).filter
          (fun r => r.acdp_id == some acdpId), x.seed_id = some a0.seed_id) ∧
      (sbs.filter (fun r => aux.any (fun a => a.seed_id == r.seed_id))).filter
          (fun r => r.acdp_id == some acdpId) =
        sbs.filter (fun r => r.seed_id == some a0.seed_id) ∧
      sbs.filter (fun r => ¬ ((sbs.filter (fun r2 => aux.any (fun a => a.seed_id == r2.seed_id))).filter
          (fun r2 => r2.acdp_id == some acdpId)).any (fun x => x.seed_id == r.seed_id)) =
        sbs.filter (fun r => !(r.seed_id == some a0.seed_id)) := by
  obtain ⟨x0, hx0⟩ := List.exists_mem_of_ne_nil _ hne
  have hx0f := List.mem_filter.1 hx0
  have hx0a := List.mem_filter.1 hx0f.1
  have hx0id : x0.acdp_id = some acdpId := by simpa using hx0f.2
  obtain ⟨a0, ha0, hx0sid, hx0aid⟩ := htag x0 hx0a.1
  have hinjA := List.inj_on_of_nodup_map hnda
  have hinjS := List.inj_on_of_nodup_map hnds
  have ha0id : a0.acdp_id = acdpId :=
    Option.some_inj.1 (by rw [← hx0aid, hx0id])
  have hAuni : ∀ x ∈ (sbs.filter (fun r => aux.any (fun a => a.seed_id == r.seed_id))).filter
      (fun r => r.acdp_id == some acdpId), x.seed_id = some a0.seed_id := by
    intro x hx
    have hxf := List.mem_filter.1 hx
    have hxs : x ∈ sbs := (List.mem_filter.1 hxf.1).1
    have hxid : x.acdp_id = some acdpId := by simpa using hxf.2
    obtain ⟨a, ha, hxsid, hxaid⟩ := htag x hxs
    have haid : a.acdp_id = acdpId := Option.some_inj.1 (by rw [← hxaid, hxid])
    have haa : a = a0 := hinjA ha ha0 (by rw [haid, ha0id])
    rw [hxsid, haa]
  have hBmem : ∀ r ∈ sbs,
      (((sbs.filter (fun r2 => aux.any (fun a => a.seed_id == r2.seed_id))).filter
          (fun r2 => r2.acdp_id == some acdpId)).any (fun x => x.seed_id == r.seed_id) = true
        ↔ r.seed_id = some a0.seed_id) := by
    intro r _
    constructor
    · intro hany
      obtain ⟨x, hx, hxr⟩ := List.any_eq_true.1 hany
      have hxe : x.seed_id = r.seed_id := by simpa using hxr
      rw [← hxe]
      exact hAuni x hx
    · intro hrs
      refine List.any_eq_true.2 ⟨x0, hx0, ?_⟩
      simp [hx0sid, hrs]
  refine ⟨a0, ha0, ha0id, hAuni, ?_, ?_⟩
  · rw [List.filter_filter]
    apply List.filter_congr
    intro r hr
    by_cases hrs : r.seed_id = some a0.seed_id
    · obtain ⟨a, ha, hrsid, hraid⟩ := htag r hr
      have haa : a = a0 := hinjS ha ha0 (Option.some_inj.1 (by rw [← hrsid, hrs]))
      have hrid : r.acdp_id = some acdpId := by rw [hraid, haa, ha0id]
      have hauxr : aux.any (fun a => a.seed_id == some a0.seed_id) = true := by
        have hx0aux := hx0a.2
        rw [hx0sid] at hx0aux
        exact hx0aux
      simp only [hrid, hrs, hauxr, beq_self_eq_true, Bool.and_true, Bool.true_and]
    · have hrid : r.acdp_id ≠ some acdpId := by
        intro hc
        obtain ⟨a, ha, hrsid, hraid⟩ := htag r hr
        have haid : a.acdp_id = acdpId := Option.some_inj.1 (by rw [← hraid, hc])
        have haa : a = a0 := hinjA ha ha0 (by rw [haid, ha0id])
        exact hrs (by rw [hrsid, haa])
      have h1 : (r.acdp_id == some acdpId) = false := by simp [hrid]
      have h2 : (r.seed_id == some a0.seed_id) = false := by simp [hrs]
      simp only [h1, h2, Bool.false_and]
  · apply List.filter_congr
    intro r hr
    by_cases hrs : r.seed_id = some a0.seed_id
    · have hany := (hBmem r hr).2 hrs
      have h2 : (r.seed_id == some a0.seed_id) = true := by simp [hrs]
      simp only [hany, h2]
      rfl
    · have hfalse : ((sbs.filter (fun r2 => aux.any (fun a => a.seed_id == r2.seed_id))).filter
          (fun r2 => r2.acdp_id == some acdpId)).any (fun x => x.seed_id == r.seed_id) = false := by
        cases hany : ((sbs.filter (fun r2 => aux.any (fun a => a.seed_id == r2.seed_id))).filter
            (fun r2 => r2.acdp_id == some acdpId)).any (fun x => x.seed_id == r.seed_id) with
        | false => rfl
        | true => exact absurd ((hBmem r hr).1 hany) hrs
      have h2 : (r.seed_id == some a0.seed_id) = false := by simp [hrs]
      simp only [hfalse, h2]
      rfl

lemma rebuildLoop_perm {G : Type} (ops : GeoOps G) (aux : List (SRow G)) :
    ∀ (changed : List Nat) (acdps : List (AcdpRow G)) (sbs : List (SRow G)) (counter : Nat)
      (acdps2 : List (AcdpRow G)) (sbs2 : List (SRow G)) (counter2 : Nat),
      (∀ r ∈ sbs, TagRef acdps r) →
      ((acdps.map (·.seed_id)).Nodup) →
      ((acdps.map (·.acdp_id)).Nodup) →
      rebuildLoop ops aux changed acdps sbs counter = .ok (acdps2, sbs2, counter2) →
      List.Perm (selCodes sbs2) (selCodes sbs) := by
  intro changed
  induction changed with
  | nil =>
    intro acdps sbs counter acdps2 sbs2 counter2 _ _ _ h
    simp only [rebuildLoop, Except.ok.injEq, Prod.mk.injEq] at h
    rw [← h.2.1]
  | cons acdpId rest ih =>
    intro acdps sbs counter acdps2 sbs2 counter2 htag hnds hnda h
    simp only [rebuildLoop] at h
    split at h
    · exact ih acdps sbs counter acdps2 sbs2 counter2 htag hnds hnda h
    · rename_i hselne
      have hSne : (sbs.filter (fun r => aux.any (fun a => a.seed_id == r.seed_id))).filter
          (fun r => r.acdp_id == some acdpId) ≠ [] := by
        intro hnil
        exact hselne (by rw [hnil]; rfl)
      obtain ⟨a0, ha0, ha0id, hAuni, hSel_eq, hRem_eq⟩ :=
        rebuild_sel_facts aux acdps sbs acdpId htag hnds hnda hSne
      have hbuild := build_uniform_some ops counter
        ((sbs.filter (fun r => aux.any (fun a => a.seed_id == r.seed_id))).filter
          (fun r => r.acdp_id == some acdpId)) a0.seed_id acdpId hSne hAuni
      simp only [hbuild] at h
      have hinjA := List.inj_on_of_nodup_map hnda
      have hinjS := List.inj_on_of_nodup_map hnds
      refine List.Perm.trans (ih _ _ counter acdps2 sbs2 counter2 ?tagN ?ndsN ?ndaN h) ?_
      case tagN =>
        intro r hr
        rcases List.mem_append.1 hr with hr | hr
        · have hrf := List.mem_filter.1 hr
          have hrs : r ∈ sbs := hrf.1
          have hnotB : ¬ r.seed_id = some a0.seed_id := by
            intro hc
            have hmem : r ∈ sbs.filter (fun r2 => !(r2.seed_id == some a0.seed_id)) := by
              rw [← hRem_eq]
              exact hr
            have := (List.mem_filter.1 hmem).2
            simp [hc] at this
          obtain ⟨a, ha, hrsid, hraid⟩ := htag r hrs
          have haneq : a.acdp_id ≠ acdpId := by
            intro hc
            have haa : a = a0 := hinjA ha ha0 (by rw [hc, ha0id])
            exact hnotB (by rw [hrsid, haa])
          refine ⟨a, List.mem_append_left _ (List.mem_filter.2 ⟨ha, by simp [haneq]⟩),
            hrsid, hraid⟩
        · rcases List.mem_map.1 hr with ⟨x, hx, hrx⟩
          refine ⟨_, List.mem_append_right _ (List.mem_singleton_self _), ?_, ?_⟩
          · rw [← hrx]
            simpa using hAuni x hx
          · rw [← hrx]
      case ndsN =>
        simp only [List.map_append, List.map_cons, List.map_nil]
        rw [List.nodup_append]
        refine ⟨List.Nodup.sublist ((List.filter_sublist acdps).map _) hnds, by simp, ?_⟩
        intro y hy
        rcases List.mem_map.1 hy with ⟨a, ha, hya⟩
        have haf := List.mem_filter.1 ha
        have haneq : a.acdp_id ≠ acdpId := by
          have := haf.2
          simpa using this
        simp only [List.mem_singleton]
        intro hc
        have haa : a = a0 := hinjS haf.1 ha0 (by rw [hya, hc])
        exact haneq (by rw [haa, ha0id])
      case ndaN =>
        simp only [List.map_append, List.map_cons, List.map_nil]
        rw [List.nodup_append]
        refine ⟨List.Nodup.sublist ((List.filter_sublist acdps).map _) hnda, by simp, ?_⟩
        intro y hy
        rcases List.mem_map.1 hy with ⟨a, ha, hya⟩
        have haf := List.mem_filter.1 ha
        have haneq : a.acdp_id ≠ acdpId := by
          have := haf.2
          simpa using this
        simp only [List.mem_singleton]
        intro hc
        exact haneq (by rw [hya, hc])
      rw [selCodes_append]
      rw [selCodes_map_of (fun r => { r with acdp_id := some acdpId }) (fun r => rfl)]
      rw [hRem_eq, hSel_eq]
      have hrows : (sbs.filter (fun r => !(r.seed_id == some a0.seed_id)) ++
          sbs.filter (fun r => r.seed_id == some a0.seed_id)).Perm sbs :=
        (List.perm_append_comm).trans
          (List.filter_append_perm (fun r => r.seed_id == some a0.seed_id) sbs)
      simpa [selCodes, List.map_append] using hrows.map (fun r => r.cd_setor)

lemma perm_partition_concl {A B C : List String} (hperm : List.Perm (A ++ B) C)
    (hnd : C.Nodup) :
    (∀ code ∈ A, code ∉ B) ∧
    (∀ code, (code ∈ A ∨ code ∈ B) ↔ code ∈ C) := by
  have hndAB : (A ++ B).Nodup := hperm.symm.nodup hnd
  rw [List.nodup_append] at hndAB
  refine ⟨fun code hA hB => hndAB.2.2 hA hB, fun code => ?_⟩
  rw [← hperm.mem_iff, List.mem_append]

/-- Claim C3: on every district input with pairwise distinct sector codes and
pairwise distinct seed ids, a successful run of `district_sectors_grouping`
partitions the input sector codes: the codes of the `sectors_by_seeds` output
(the rows assigned to some ACDP) and the codes of the orphan output are
disjoint, and their union is exactly the set of input sector codes. -/
theorem claim_C3 {G : Type} (ops : GeoOps G) (p : Params) (seeds : List (SeedRow G))
    (sectors : List (SRow G)) (counter fuel : Nat) (out : DistrictOut G) (c2 : Nat)
    (hnd : (selCodes sectors).Nodup)
    (hseeds : (seeds.map (·.seed_id)).Nodup)
    (hok : district_sectors_grouping ops p seeds sectors counter fuel = .ok (out, c2)) :
    (∀ code ∈ selCodes out.sectors_by_seeds, code ∉ selCodes (optList out.orphan_sectors)) ∧
    (∀ code, (code ∈ selCodes out.sectors_by_seeds ∨
        code ∈ selCodes (optList out.orphan_sectors)) ↔ code ∈ selCodes sectors) := by
  have hmain : List.Perm
      (selCodes out.sectors_by_seeds ++ selCodes (optList out.orphan_sectors))
      (selCodes sectors) := by
    simp only [district_sectors_grouping] at hok
    cases hsl : seedLoop ops p fuel seeds
        { sbs := none, circ := [], acdps := none, remaining := sectors,
          counter := counter } with
    | error e =>
      rw [hsl] at hok
      simp at hok
    | ok st =>
      simp only [hsl] at hok
      have hinv : StInv (selCodes sectors) st := by
        refine seedLoop_inv ops p fuel (selCodes sectors) hnd seeds _ st
          ⟨?_, ?_, ?_, ?_, ?_⟩ hseeds ?_ hsl
        · simp [optList, selCodes]
        · intro r hr
          simp [optList] at hr
        · simp [optList]
        · simp [optList]
        · intro a ha
          simp [optList] at ha
        · intro a ha
          simp [optList] at ha
      obtain ⟨hperm0, htag0, hnds0, hnda0, -⟩ := hinv
      split at hok
      · rename_i hre
        have hre2 : st.remaining = [] := by
          cases hrem : st.remaining with
          | nil => rfl
          | cons a l =>
            rw [hrem] at hre
            simp at hre
        cases hsbs : st.sbs with
        | none =>
          simp only [hsbs] at hok
          simp at hok
        | some sbs0 =>
          cases hac : st.acdps with
          | none =>
            simp only [hsbs, hac] at hok
            simp at hok
          | some acdps0 =>
            simp only [hsbs, hac, Except.ok.injEq, Prod.mk.injEq] at hok
            obtain ⟨hout, -⟩ := hok
            rw [← hout]
            simp only [optList, Option.getD, selCodes, List.map_nil, List.append_nil]
            rw [hsbs, hre2] at hperm0
            simpa [optList, selCodes] using hperm0
      · rename_i hre
        cases hac : st.acdps with
        | none =>
          simp only [hac] at hok
          simp at hok
        | some acdps0 =>
          simp only [hac] at hok
          cases hph : put_sectors_in_holes ops st.remaining acdps0 with
          | error e =>
            rw [hph] at hok
            simp at hok
          | ok triple =>
            obtain ⟨selAux?, remaining2, changed⟩ := triple
            simp only [hph] at hok
            cases hsbs : st.sbs with
            | none =>
              simp only [hsbs] at hok
              simp at hok
            | some sbs0 =>
              cases hsa : selAux? with
              | none =>
                simp only [hsbs, hsa] at hok
                simp at hok
              | some selAux =>
                simp only [hsbs, hsa] at hok
                cases hrb : rebuildLoop ops selAux changed acdps0 (sbs0 ++ selAux)
                    st.counter with
                | error e =>
                  rw [hrb] at hok
                  simp at hok
                | ok trip2 =>
                  obtain ⟨acdps2, sbs2, counter2⟩ := trip2
                  simp only [hrb, Except.ok.injEq, Prod.mk.injEq] at hok
                  obtain ⟨hout, -⟩ := hok
                  rw [← hout]
                  rw [hsbs] at hperm0 htag0
                  rw [hac] at hnds0 hnda0 htag0
                  simp only [optList, Option.getD] at hperm0 htag0
                  have hndrem : (selCodes st.remaining).Nodup := by
                    have hall := hperm0.symm.nodup hnd
                    exact (List.nodup_append.1 hall).2.1
                  have hph2 : holesLoop ops acdps0 none st.remaining [] none =
                      .ok (some selAux, remaining2, changed) := by
                    rw [← hsa]
                    exact hph
                  obtain ⟨hperm2, htag2⟩ := holesLoop_inv ops acdps0 acdps0 none
                    st.remaining [] none (some selAux) remaining2 changed
                    (fun a ha => ha) (by intro r hr; simp [optList] at hr) hndrem hph2
                  simp only [optList, Option.getD, selCodes, List.map_nil,
                    List.nil_append] at hperm2 htag2
                  have htagRB : ∀ r ∈ sbs0 ++ selAux, TagRef acdps0 r := by
                    intro r hr
                    rcases List.mem_append.1 hr with hr | hr
                    · exact htag0 r hr
                    · exact htag2 r hr
                  have hperm3 := rebuildLoop_perm ops selAux changed acdps0
                    (sbs0 ++ selAux) st.counter acdps2 sbs2 counter2
                    htagRB hnds0 hnda0 hrb
                  have horph : selCodes (optList
                      (if remaining2.isEmpty = true then none else some remaining2)) =
                      selCodes remaining2 := by
                    cases hform : remaining2 with
                    | nil => simp [optList, selCodes]
                    | cons a l => simp [optList, selCodes]
                  simp only []
                  rw [horph]
                  refine List.Perm.trans (hperm3.append_right _) ?_
                  rw [selCodes_append, List.append_assoc]
                  refine List.Perm.trans (List.Perm.append_left _ hperm2) hperm0
  exact perm_partition_concl hmain hnd

/-- Witness for claim C3: the partition property instantiated on the concrete
run of one seed over the single sector `x` (all of whose codes end up
assigned, with no orphans). -/
theorem claim_C3_witness :
    ("x" ∈ selCodes outX.sectors_by_seeds ∨ "x" ∈ selCodes (optList outX.orphan_sectors)) ↔
      "x" ∈ selCodes [secX] := by
  refine (claim_C3 cOpsA pDefault [seedA] [secX] 0 10 outX 1 (by decide) (by decide) ?_).2 "x"
  norm_num [district_sectors_grouping, seedLoop, get_sectors_by_seed, get_candidates,
    filterCandidates, move_selected_sectors, finalizeSeed, build_acdp_by_sectors,
    dissolveGroups, dissolveKeys, groupRows, firstDedupAux, sumDom, selCodes, optList,
    intersectsO, round2, cOpsA, pDefault, SeedProcess.init, seedA, secX, secXs, outX, icx]
